import Mathlib

/-!
# CityNext appointments: holiday cache, date validation and booking

A shallow embedding of `internal/services/holiday_service.go`,
`internal/services/appointment_service.go`, `pkg/client/holiday_client.go`,
`internal/database/memory_repository.go` and `internal/api/models/date.go`,
and the properties of the cache-first holiday check, of the validation chain
(past, weekend, holiday), of the booking workflow over its two collaborators
and of the JSON form of a date.

The Go standard library's `time.Time` is modelled by an instant counted in
nanoseconds since `0001-01-01T00:00:00Z` (the zero time of package `time`)
together with the offset of its location; integers are unbounded, the
operations used here never come near the ends of the `int64` range for
calendar years of four digits.
-/

namespace CityNext

/-! ## The standard library's `time.Time` -/

/-- Nanoseconds of `24 * time.Hour`. -/
def dayNanos : Int := 86400000000000

/-- A `time.Time`: the instant in nanoseconds since `0001-01-01T00:00:00Z`
and the offset (seconds east of UTC) of the location it is shown in. -/
structure Time where
  ns : Int
  offset : Int
  deriving DecidableEq, Repr

namespace Time

/-- The method `t.UTC()`: same instant, location UTC. -/
def UTC (t : Time) : Time := { t with offset := 0 }

/-- The method `t.Truncate(d)`: rounds the instant down to a multiple of `d`
since the zero time; `d <= 0` returns `t` unchanged. -/
def Truncate (t : Time) (d : Int) : Time :=
  if d ≤ 0 then t else { t with ns := t.ns - t.ns % d }

/-- The method `t.Before(u)`: the instant of `t` is earlier. -/
def Before (t u : Time) : Bool := decide (t.ns < u.ns)

/-- Days since `0001-01-01` of the civil date that `t` shows in its location. -/
def localDay (t : Time) : Int := (t.ns + t.offset * 1000000000) / dayNanos

/-- The method `t.Weekday()`: `0` is Sunday, ..., `6` is Saturday;
`0001-01-01` is a Monday. -/
def Weekday (t : Time) : Int := (t.localDay + 1) % 7

/-- Proleptic Gregorian (year, month, day) of a number of days since
`0001-01-01`. -/
def civil (days : Int) : Int × Int × Int :=
  let z := days + 306
  let era := z / 146097
  let doe := z - era * 146097
  let yoe := (doe - doe / 1460 + doe / 36524 - doe / 146096) / 365
  let doy := doe - (365 * yoe + yoe / 4 - yoe / 100)
  let mp := (5 * doy + 2) / 153
  let d := doy - (153 * mp + 2) / 5 + 1
  let m := if mp < 10 then mp + 3 else mp - 9
  let y := yoe + era * 400 + (if m ≤ 2 then 1 else 0)
  (y, m, d)

/-- The method `t.Year()`. -/
def Year (t : Time) : Int := (civil t.localDay).1

/-- The method `t.Month()` as a number, January is `1`. -/
def Month (t : Time) : Int := (civil t.localDay).2.1

/-- The method `t.Day()`. -/
def Day (t : Time) : Int := (civil t.localDay).2.2

end Time

/-- The decimal digit `n % 10` as a character. -/
def digitChar (n : Nat) : Char :=
  match n % 10 with
  | 0 => '0' | 1 => '1' | 2 => '2' | 3 => '3' | 4 => '4'
  | 5 => '5' | 6 => '6' | 7 => '7' | 8 => '8' | _ => '9'

/-- The last `width` decimal digits of `n`, most significant first. -/
def lastDigits : Nat → Nat → List Char
  | 0, _ => []
  | width + 1, n => lastDigits width (n / 10) ++ [digitChar n]

/-- Decimal digits of `n`, at least `width` of them (zero padded). The
first argument bounds the number of digits produced. -/
def padDigits : Nat → Nat → Nat → List Char
  | 0, width, n => lastDigits width n
  | fuel + 1, width, n =>
    if n < 10 ^ width then lastDigits width n
    else padDigits fuel (width + 1) n

/-- Package `time`'s `appendInt`: a signed integer zero padded to `width`
digits. -/
def appendInt (x : Int) (width : Nat) : List Char :=
  if x < 0 then '-' :: padDigits x.natAbs width x.natAbs
  else padDigits x.natAbs width x.natAbs

/-- The constant `dateLayout = "2006-01-02"` applied by `Time.Format`. -/
def formatDateLayout (t : Time) : String :=
  String.mk (appendInt t.Year 4 ++ '-' :: appendInt t.Month 2 ++ '-' :: appendInt t.Day 2)


/-! ## `pkg/client`: the remote holiday source -/

/-- A public holiday of the Nager.Date API (struct `Holiday`). -/
structure Holiday where
  Date : String
  LocalName : String
  Name : String
  CountryCode : String
  Fixed : Bool
  Global : Bool
  Counties : List String
  LaunchYear : Option Int
  Types : List String
  deriving DecidableEq, Repr

/-- The errors of the services layer (`internal/services/errors.go`), the
errors that `HolidayClient.GetPublicHolidays` builds with `fmt.Errorf`, the
errors of the database layer (`internal/database/errors.go`), the error that
`Date.UnmarshalJSON` builds with `fmt.Errorf`, and any other error that an
implementation of the repository interface hands back. A value built by
`fmt.Errorf` is never equal to one of the variables. -/
inductive Error where
  | ErrDateInPast
  | ErrDateIsHoliday
  | ErrDateIsWeekend
  | ErrInvalidInput
  | failedToCreateRequest (cause : String)
  | failedToFetch (cause : String)
  | apiStatus (statusCode : Nat)
  | failedToDecode (cause : String)
  | ErrDuplicateAppointment
  | ErrAppointmentNotFound
  | invalidDate (cause : String)
  | other (cause : String)
  deriving DecidableEq, Repr

/-- What one outbound HTTP exchange of `GetPublicHolidays` can do: the
request cannot be built, the transport fails (a timeout is one such
failure), or a response arrives with a status code and a body that the JSON
decoder accepts or rejects. -/
inductive HttpOutcome where
  | requestFailed (cause : String)
  | transportFailed (cause : String)
  | response (statusCode : Nat) (body : Except String (List Holiday))

/-- The remote source as the client sees it: the outcome of the `n`-th
exchange of the process for a year and a country code. Its answers may
change from one exchange to the next. -/
def Remote : Type := Nat → Int → String → HttpOutcome

/-- The cache of `HolidayService`: `map[int]map[string]bool`, year to date
to isHoliday. `none` is an absent key. -/
def Cache : Type := Int → Option (String → Option Bool)

/-- The state that the holiday service works on: its cache, and the list
of requests (year, country code) sent to the remote source so far, oldest
first. -/
structure World where
  cache : Cache
  requests : List (Int × String)

/-- The cache of `NewHolidayService`: `make(map[int]map[string]bool)`. -/
def emptyCache : Cache := fun _ => none

/-- The state right after `NewHolidayService`. -/
def World.init : World := { cache := emptyCache, requests := [] }

/-- The method `HolidayClient.GetPublicHolidays`: one exchange with the
remote source, recorded in `requests`. -/
def GetPublicHolidays (remote : Remote) (w : World) (year : Int) (countryCode : String) :
    Except Error (List Holiday) × World :=
  let w1 : World := { w with requests := w.requests ++ [(year, countryCode)] }
  match remote w.requests.length year countryCode with
  | .requestFailed cause => (.error (.failedToCreateRequest cause), w1)
  | .transportFailed cause => (.error (.failedToFetch cause), w1)
  | .response statusCode body =>
    if statusCode ≠ 200 then (.error (.apiStatus statusCode), w1)
    else
      match body with
      | .error cause => (.error (.failedToDecode cause), w1)
      | .ok holidays => (.ok holidays, w1)

/-- The uncached method `HolidayClient.IsPublicHoliday`. -/
def HolidayClient.IsPublicHoliday (remote : Remote) (w : World) (date : Time)
    (countryCode : String) : (Bool × Option Error) × World :=
  let year := date.Year
  match GetPublicHolidays remote w year countryCode with
  | (.error err, w1) => ((false, some err), w1)
  | (.ok holidays, w1) =>
    let dateStr := formatDateLayout date
    ((holidays.any (fun holiday => holiday.Date == dateStr), none), w1)

/-! ## `internal/api/models`: `Date` -/

/-- The struct `Date`, a wrapper of `time.Time`. -/
structure Date where
  Time : Time
  deriving DecidableEq, Repr

/-- The method `Date.String`: the date as YYYY-MM-DD. -/
def Date.String (d : Date) : String := formatDateLayout d.Time

/-! ## `internal/services`: `HolidayService` -/

/-- A Go map with one key set: `m[key] = value`. -/
def mapSet {α β : Type} [DecidableEq α] (m : α → Option β) (key : α) (value : β) :
    α → Option β :=
  fun k => if k = key then some value else m k

/-- The loop of `IsPublicHoliday` over the fetched holidays: every date is
stored as `true` in the year's map, and the flag is raised when a date is
the one asked for. -/
def populate (dateStr : String) :
    List Holiday → (String → Option Bool) × Bool → (String → Option Bool) × Bool
  | [], acc => acc
  | holiday :: rest, (yearCache, isHoliday) =>
    populate dateStr rest
      (mapSet yearCache holiday.Date true,
        if holiday.Date = dateStr then true else isHoliday)

/-- The part of `IsPublicHoliday` after a cache miss: fetch the year's
holidays for "GB"; on an error return it, else build the year's map and
answer for the date. -/
def fetchAndPopulate (remote : Remote) (w : World) (year : Int) (dateStr : String) :
    (Bool × Option Error) × World :=
  match GetPublicHolidays remote w year "GB" with
  | (.error err, w1) => ((false, some err), w1)
  | (.ok holidays, w1) =>
    let yearCache0 : String → Option Bool :=
      match w1.cache year with
      | none => fun _ => none
      | some m => m
    let r := populate dateStr holidays (yearCache0, false)
    ((r.2, none), { w1 with cache := mapSet w1.cache year r.1 })

/-- The method `HolidayService.IsPublicHoliday`. -/
def IsPublicHoliday (remote : Remote) (w : World) (date : Date) :
    (Bool × Option Error) × World :=
  let year := date.Time.Year
  let dateStr := date.String
  match w.cache year with
  | some yearCache =>
    match yearCache dateStr with
    | some isHoliday => ((isHoliday, none), w)
    | none => fetchAndPopulate remote w year dateStr
  | none => fetchAndPopulate remote w year dateStr

/-- The method `HolidayService.ValidateDate`; `clock` is the value of
`time.Now()`. `none` is the nil error. -/
def ValidateDate (remote : Remote) (clock : Time) (w : World) (visitDate : Date) :
    Option Error × World :=
  let now := clock.UTC.Truncate dayNanos
  let date := visitDate.Time.UTC.Truncate dayNanos
  if date.Before now then (some .ErrDateInPast, w)
  else
    let weekday := date.Weekday
    if weekday = 6 ∨ weekday = 0 then (some .ErrDateIsWeekend, w)
    else
      match IsPublicHoliday remote w visitDate with
      | ((_, some err), w1) => (some err, w1)
      | ((isHoliday, none), w1) =>
        if isHoliday then (some .ErrDateIsHoliday, w1) else (none, w1)

/-- What the cache holds for a date string under a year: `none` when the
year or the date string is not a key. -/
def Cache.lookup (c : Cache) (year : Int) (dateStr : String) : Option Bool :=
  match c year with
  | some yearCache => yearCache dateStr
  | none => none

/-- The errors that come from the remote source (built by `fmt.Errorf` in
`GetPublicHolidays`), as opposed to the variables of `errors.go`. -/
def Error.isRemote : Error → Bool
  | .failedToCreateRequest _ => true
  | .failedToFetch _ => true
  | .apiStatus _ => true
  | .failedToDecode _ => true
  | _ => false

/-- The date of the given number of days since `0001-01-01`, at the given
nanosecond of its UTC day, in UTC (the helper `createDate` of the tests). -/
def createDate (days : Int) (nanos : Int) : Date :=
  { Time := { ns := days * dayNanos + nanos, offset := 0 } }

/-- A holiday record with the given date string and name. -/
def holidayOn (date : String) (name : String) : Holiday :=
  { Date := date, LocalName := name, Name := name, CountryCode := "GB", Fixed := false,
    Global := true, Counties := [], LaunchYear := none, Types := ["Public"] }

/-- The year 2025 cached with no holiday at all. -/
def cacheEmpty2025 : Cache := mapSet emptyCache 2025 (fun _ => none)

/-- The year 2025 cached with Christmas Day only. -/
def cacheChristmas2025 : Cache :=
  mapSet emptyCache 2025 (mapSet (fun _ => none) "2025-12-25" true)

/-- A remote source that answers every exchange with status 200 and the
same list. -/
def remoteAlways (holidays : List Holiday) : Remote :=
  fun _ _ _ => .response 200 (.ok holidays)

/-- A remote source whose every exchange times out. -/
def remoteDown : Remote := fun _ _ _ => .transportFailed "timeout"

/-- A remote source whose first exchange times out and which afterwards
answers with the given list. -/
def remoteDownOnce (holidays : List Holiday) : Remote :=
  fun n _ _ => if n = 0 then .transportFailed "timeout" else .response 200 (.ok holidays)

/-! ## Sequences of calls on the holiday service -/

/-- One call on the holiday service; `ValidateDate` comes with the value
that `time.Now()` has during the call. -/
inductive Op where
  | IsPublicHoliday (date : Date)
  | ValidateDate (clock : Time) (date : Date)

/-- The state after one call. -/
def applyOp (remote : Remote) (w : World) : Op → World
  | .IsPublicHoliday date => (IsPublicHoliday remote w date).2
  | .ValidateDate clock date => (ValidateDate remote clock w date).2

/-- The state after a sequence of calls, first call first. -/
def runOps (remote : Remote) : World → List Op → World
  | w, [] => w
  | w, op :: rest => runOps remote (applyOp remote w op) rest

/-! ## `internal/database`: appointments and their repository -/

/-- The struct `Appointment` of `internal/database/models`. -/
structure Appointment where
  ID : Nat
  FirstName : String
  LastName : String
  VisitDate : Date
  CreatedAt : Time
  UpdatedAt : Time
  DeletedAt : Option Time
  deriving DecidableEq, Repr

/-- The interface `AppointmentRepository` over a repository state. `Create`
receives the appointment by pointer and may write to it: it hands back the
appointment as it is after the call. -/
structure AppointmentRepository (ρ : Type) where
  Create : ρ → Appointment → (Appointment × Option Error) × ρ
  GetByDate : ρ → Date → (Option Appointment × Option Error) × ρ
  ExistsByDate : ρ → Date → (Bool × Option Error) × ρ

/-- The number of values of Go's `uint` on a 64-bit platform. -/
def uintSize : Nat := 2 ^ 64

/-- The struct `MemoryAppointmentRepository`: date string to appointment,
and the next id. `clockReads` is not a field of the Go struct: it counts the
readings of `time.Now()` made by the repository so far. -/
structure MemoryAppointmentRepository where
  appointments : String → Option Appointment
  nextID : Nat
  clockReads : Nat

/-- The constructor `NewMemoryAppointmentRepository`. -/
def NewMemoryAppointmentRepository : MemoryAppointmentRepository :=
  { appointments := fun _ => none, nextID := 1, clockReads := 0 }

namespace MemoryAppointmentRepository

/-- The method `MemoryAppointmentRepository.Create`; `clock n` is the value
of the `n`-th reading of `time.Now()`. -/
def Create (clock : Nat → Time) (r : MemoryAppointmentRepository)
    (appointment : Appointment) :
    (Appointment × Option Error) × MemoryAppointmentRepository :=
  let dateKey := appointment.VisitDate.String
  match r.appointments dateKey with
  | some _ => ((appointment, some .ErrDuplicateAppointment), r)
  | none =>
    let stored : Appointment :=
      { appointment with
        ID := r.nextID, CreatedAt := clock r.clockReads, UpdatedAt := clock (r.clockReads + 1) }
    ((stored, none),
      { appointments := mapSet r.appointments dateKey stored,
        nextID := (r.nextID + 1) % uintSize,
        clockReads := r.clockReads + 2 })

/-- The method `MemoryAppointmentRepository.GetByDate`. -/
def GetByDate (r : MemoryAppointmentRepository) (date : Date) :
    (Option Appointment × Option Error) × MemoryAppointmentRepository :=
  let dateKey := date.String
  match r.appointments dateKey with
  | none => ((none, some .ErrAppointmentNotFound), r)
  | some appointment => ((some appointment, none), r)

/-- The method `MemoryAppointmentRepository.ExistsByDate`. -/
def ExistsByDate (r : MemoryAppointmentRepository) (date : Date) :
    (Bool × Option Error) × MemoryAppointmentRepository :=
  let dateKey := date.String
  (((r.appointments dateKey).isSome, none), r)

end MemoryAppointmentRepository

/-- The in-memory repository as an implementation of the interface. -/
def memoryRepository (clock : Nat → Time) :
    AppointmentRepository MemoryAppointmentRepository :=
  { Create := MemoryAppointmentRepository.Create clock,
    GetByDate := MemoryAppointmentRepository.GetByDate,
    ExistsByDate := MemoryAppointmentRepository.ExistsByDate }

/-! ## `internal/services`: `AppointmentService` -/

/-- The interface `HolidayServiceInterface` over a validator state. -/
structure HolidayServiceInterface (σ : Type) where
  IsPublicHoliday : σ → Date → (Bool × Option Error) × σ
  ValidateDate : σ → Date → Option Error × σ

/-- The struct `CreateAppointmentRequest`. -/
structure CreateAppointmentRequest where
  FirstName : String
  LastName : String
  VisitDate : Date
  deriving DecidableEq, Repr

/-- A call that `AppointmentService` makes on one of its two
collaborators. -/
inductive Call where
  | ValidateDate (date : Date)
  | ExistsByDate (date : Date)
  | Create (appointment : Appointment)
  deriving DecidableEq, Repr

/-- What `AppointmentService` works on: the state of the holiday service,
the state of the repository, and the calls made on them so far, oldest
first. -/
structure ServiceState (σ ρ : Type) where
  holiday : σ
  repo : ρ
  calls : List Call

/-- The method `AppointmentService.CreateAppointment`. The result is the
pair (appointment or nil, error or nil). -/
def AppointmentService.CreateAppointment {σ ρ : Type} (holidayService : HolidayServiceInterface σ)
    (repo : AppointmentRepository ρ) (s : ServiceState σ ρ) (req : CreateAppointmentRequest) :
    (Option Appointment × Option Error) × ServiceState σ ρ :=
  if req.FirstName = "" ∨ req.LastName = "" then ((none, some .ErrInvalidInput), s)
  else
    match holidayService.ValidateDate s.holiday req.VisitDate with
    | (some err, h1) =>
      ((none, some err),
        { s with holiday := h1, calls := s.calls ++ [.ValidateDate req.VisitDate] })
    | (none, h1) =>
      match repo.ExistsByDate s.repo req.VisitDate with
      | ((_, some err), r2) =>
        ((none, some err),
          { holiday := h1, repo := r2,
            calls := s.calls ++ [.ValidateDate req.VisitDate, .ExistsByDate req.VisitDate] })
      | ((found, none), r2) =>
        if found then
          ((none, some .ErrDuplicateAppointment),
            { holiday := h1, repo := r2,
              calls := s.calls ++ [.ValidateDate req.VisitDate, .ExistsByDate req.VisitDate] })
        else
          let appointment : Appointment :=
            { ID := 0, FirstName := req.FirstName, LastName := req.LastName,
              VisitDate := req.VisitDate, CreatedAt := ⟨0, 0⟩, UpdatedAt := ⟨0, 0⟩,
              DeletedAt := none }
          match repo.Create r2 appointment with
          | ((_, some err), r3) =>
            ((none, some err),
              { holiday := h1, repo := r3,
                calls := s.calls ++ [.ValidateDate req.VisitDate,
                  .ExistsByDate req.VisitDate, .Create appointment] })
          | ((created, none), r3) =>
            ((some created, none),
              { holiday := h1, repo := r3,
                calls := s.calls ++ [.ValidateDate req.VisitDate,
                  .ExistsByDate req.VisitDate, .Create appointment] })

/-- The state after a sequence of `CreateAppointment` calls, first call
first. -/
def createAll {σ ρ : Type} (holidayService : HolidayServiceInterface σ)
    (repo : AppointmentRepository ρ) : ServiceState σ ρ → List CreateAppointmentRequest →
    ServiceState σ ρ
  | s, [] => s
  | s, req :: rest =>
    createAll holidayService repo
      (AppointmentService.CreateAppointment holidayService repo s req).2 rest

/-- The mock of the unit tests: a holiday service with no state whose
`ValidateDate` gives the same answer to every call. -/
def MockHolidayService (answer : Option Error) : HolidayServiceInterface Unit :=
  { IsPublicHoliday := fun _ _ => ((false, none), ()),
    ValidateDate := fun _ _ => (answer, ()) }

/-- The mock of the unit tests: a repository with no state and fixed
answers. -/
def MockAppointmentRepository (existsAnswer : Bool × Option Error)
    (createAnswer : Option Error) : AppointmentRepository Unit :=
  { Create := fun _ appointment => ((appointment, createAnswer), ()),
    GetByDate := fun _ _ => ((none, some .ErrAppointmentNotFound), ()),
    ExistsByDate := fun _ _ => (existsAnswer, ()) }

/-- A repository clock that always reads midnight of 2025-06-02. -/
def fixedClock : Nat → Time := fun _ => (createDate 739403 0).Time

/-! ## The cache mutex during `IsPublicHoliday` -/

/-- What one call holds of the `sync.RWMutex` of the cache: the number of
read locks and whether it has the write lock. -/
structure Holds where
  readLocks : Nat
  writeLock : Bool
  deriving DecidableEq, Repr

namespace Holds

/-- A call that holds nothing. -/
def free : Holds := { readLocks := 0, writeLock := false }

/-- The method `RLock` for a call with the given holds: with the write lock
in its own hands the call would wait for itself, which is `none`. -/
def RLock (h : Holds) : Option Holds :=
  if h.writeLock then none else some { h with readLocks := h.readLocks + 1 }

/-- The method `RUnlock`: giving back a read lock that the call does not
hold is an error, which is `none`. -/
def RUnlock (h : Holds) : Option Holds :=
  if h.readLocks = 0 then none else some { h with readLocks := h.readLocks - 1 }

/-- The method `Lock`: a call that holds a read lock or the write lock would
wait for itself, which is `none`. -/
def Lock (h : Holds) : Option Holds :=
  if h.writeLock ∨ h.readLocks ≠ 0 then none else some { h with writeLock := true }

/-- The method `Unlock`: giving back the write lock that the call does not
hold is an error, which is `none`. -/
def Unlock (h : Holds) : Option Holds :=
  if h.writeLock then some { h with writeLock := false } else none

end Holds

/-- A step of `IsPublicHoliday` on the mutex, on the cache or on the remote
source. `readCache` is a lookup in `s.cache` (lines 44-45, line 70),
`writeCache` a store into it (lines 71, 77), `fetch` the call of
`GetPublicHolidays` (line 58) with its arguments and whether it returned
without error. -/
inductive Step where
  | RLock
  | RUnlock
  | Lock
  | Unlock
  | readCache
  | writeCache
  | fetch (year : Int) (countryCode : String) (ok : Bool)
  deriving DecidableEq, Repr

/-- The request that a step sends to the remote source, if it sends one. -/
def Step.request : Step → Option (Int × String)
  | .fetch year countryCode _ => some (year, countryCode)
  | _ => none

/-- The part of `IsPublicHoliday` after a cache miss, with the mutex: the
read lock is given back, the holidays are fetched, and on success the write
lock is taken, the year's map is built and the write lock is given back on
return (`defer`). Every step is listed with what the call holds during it
(for a step on the mutex: right after it). `none` is a call that waits for
itself or gives back a lock it does not hold. -/
def fetchAndPopulateLocked (remote : Remote) (w : World) (year : Int) (dateStr : String)
    (held : Holds) (steps : List (Step × Holds)) :
    Option (((Bool × Option Error) × World) × Holds × List (Step × Holds)) :=
  match held.RUnlock with
  | none => none
  | some h2 =>
    match GetPublicHolidays remote w year "GB" with
    | (.error err, w1) =>
      some (((false, some err), w1), h2,
        steps ++ [(.RUnlock, h2), (.fetch year "GB" false, h2)])
    | (.ok holidays, w1) =>
      match h2.Lock with
      | none => none
      | some h3 =>
        let yearCache0 : String → Option Bool :=
          match w1.cache year with
          | none => fun _ => none
          | some m => m
        let created : List (Step × Holds) :=
          match w1.cache year with
          | none => [(.writeCache, h3)]
          | some _ => []
        let r := populate dateStr holidays (yearCache0, false)
        match h3.Unlock with
        | none => none
        | some h4 =>
          some (((r.2, none), { w1 with cache := mapSet w1.cache year r.1 }), h4,
            steps ++ [(.RUnlock, h2), (.fetch year "GB" true, h2), (.Lock, h3),
                (.readCache, h3)] ++ created ++
              holidays.map (fun _ => (Step.writeCache, h3)) ++ [(.Unlock, h4)])

/-- The method `HolidayService.IsPublicHoliday` with the mutex: the result
and the state after the call, what the call holds on return, and its steps
in program order, each with what the call holds during it. The call starts
with nothing held. -/
def IsPublicHolidayLocked (remote : Remote) (w : World) (date : Date) :
    Option (((Bool × Option Error) × World) × Holds × List (Step × Holds)) :=
  let year := date.Time.Year
  let dateStr := date.String
  match Holds.free.RLock with
  | none => none
  | some h1 =>
    match w.cache year with
    | some yearCache =>
      match yearCache dateStr with
      | some isHoliday =>
        match h1.RUnlock with
        | none => none
        | some h2 =>
          some (((isHoliday, none), w), h2,
            [(.RLock, h1), (.readCache, h1), (.RUnlock, h2)])
      | none =>
        fetchAndPopulateLocked remote w year dateStr h1 [(.RLock, h1), (.readCache, h1)]
    | none =>
      fetchAndPopulateLocked remote w year dateStr h1 [(.RLock, h1), (.readCache, h1)]

/-! ## `internal/api/models`: the JSON form of `Date` -/

/-- The method `t.IsZero()`: the instant is the zero time. -/
def Time.IsZero (t : Time) : Bool := decide (t.ns = 0)

/-- Package `time`'s `isLeap`. -/
def isLeap (year : Int) : Bool :=
  decide (year % 4 = 0 ∧ (year % 100 ≠ 0 ∨ year % 400 = 0))

/-- Package `time`'s `daysIn`: the number of days of a month of a year. -/
def daysIn (month year : Int) : Int :=
  if month = 2 then (if isLeap year then 29 else 28)
  else if month = 4 ∨ month = 6 ∨ month = 9 ∨ month = 11 then 30
  else 31

/-- Days since `0001-01-01` of a proleptic Gregorian (year, month, day). -/
def daysFromCivil (y m d : Int) : Int :=
  let y1 := if m ≤ 2 then y - 1 else y
  let era := y1 / 400
  let yoe := y1 - era * 400
  let mp := if 2 < m then m - 3 else m + 9
  let doy := (153 * mp + 2) / 5 + d - 1
  let doe := yoe * 365 + yoe / 4 - yoe / 100 + doy
  era * 146097 + doe - 306

/-- The value of a decimal digit. -/
def digitValue (c : Char) : Int := (c.toNat : Int) - 48

/-- Package `time`'s `Parse` for the layout `dateLayout = "2006-01-02"`:
four digits of year, two of month, two of day, separated by `-`, nothing
more; the month and the day must exist; the result is midnight UTC. -/
def parseDateLayout (value : String) : Except String Time :=
  match value.data with
  | [y1, y2, y3, y4, s1, m1, m2, s2, d1, d2] =>
    if y1.isDigit ∧ y2.isDigit ∧ y3.isDigit ∧ y4.isDigit ∧ s1 = '-' ∧
        m1.isDigit ∧ m2.isDigit ∧ s2 = '-' ∧ d1.isDigit ∧ d2.isDigit then
      let year := digitValue y1 * 1000 + digitValue y2 * 100 + digitValue y3 * 10 + digitValue y4
      let month := digitValue m1 * 10 + digitValue m2
      let day := digitValue d1 * 10 + digitValue d2
      if month ≤ 0 ∨ 12 < month then .error "month out of range"
      else if day < 1 ∨ daysIn month year < day then .error "day out of range"
      else .ok { ns := daysFromCivil year month day * dayNanos, offset := 0 }
    else .error "cannot parse"
  | _ => .error "cannot parse"

/-- The call `strings.Trim(s, "\"")`: the double quotes at both ends
removed. -/
def trimQuotes (s : String) : String :=
  String.mk (((s.data.dropWhile (fun c => c == '"')).reverse.dropWhile
    (fun c => c == '"')).reverse)

/-- A `[]byte` holding text. -/
abbrev Bytes : Type := String

/-- The method `Date.MarshalJSON`: the bytes and the (nil) error. -/
def Date.MarshalJSON (d : Date) : Bytes × Option Error :=
  if d.Time.IsZero then ("null", none)
  else (('"' :: (formatDateLayout d.Time).data ++ ['"']).asString, none)

/-- The method `Date.UnmarshalJSON` on the receiver `d`: the error and the
receiver after the call. -/
def Date.UnmarshalJSON (d : Date) (b : Bytes) : Option Error × Date :=
  let s := trimQuotes b
  if s = "null" ∨ s = "" then (none, { Time := { ns := 0, offset := 0 } })
  else
    match parseDateLayout s with
    | .error cause => (some (.invalidDate cause), d)
    | .ok t => (none, { Time := t.UTC })

/-! ## Invariants of the cache -/

/-- Every entry stored in the cache maps its date to `true`. -/
def Cache.storesTrueOnly (c : Cache) : Prop :=
  ∀ (year : Int) (yearCache : String → Option Bool) (dateStr : String) (b : Bool),
    c year = some yearCache → yearCache dateStr = some b → b = true

/-- The remote source is a fixed function of (year, country code): every
exchange gets the same outcome. -/
def Remote.fixed (remote : Remote) : Prop :=
  ∀ (n m : Nat) (year : Int) (countryCode : String),
    remote n year countryCode = remote m year countryCode

/-- Every date stored under a year is stored as `true` and is the date of
a holiday that the remote source lists for that year and "GB". -/
def Cache.fromRemote (remote : Remote) (c : Cache) : Prop :=
  ∀ (year : Int) (yearCache : String → Option Bool) (dateStr : String) (b : Bool),
    c year = some yearCache → yearCache dateStr = some b →
      b = true ∧ ∃ holidays, (GetPublicHolidays remote World.init year "GB").1 = .ok holidays ∧
        dateStr ∈ holidays.map (fun h => h.Date)

/-! ## Lemmas on the client and on the population loop -/

theorem GetPublicHolidays_cache (remote : Remote) (w : World) (year : Int) (cc : String) :
    (GetPublicHolidays remote w year cc).2.cache = w.cache := by
  unfold GetPublicHolidays
  cases remote w.requests.length year cc with
  | requestFailed c => rfl
  | transportFailed c => rfl
  | response st body =>
    by_cases hst : st = 200
    · cases body <;> simp [hst]
    · simp [hst]

theorem GetPublicHolidays_requests (remote : Remote) (w : World) (year : Int) (cc : String) :
    (GetPublicHolidays remote w year cc).2.requests = w.requests ++ [(year, cc)] := by
  unfold GetPublicHolidays
  cases remote w.requests.length year cc with
  | requestFailed c => rfl
  | transportFailed c => rfl
  | response st body =>
    by_cases hst : st = 200
    · cases body <;> simp [hst]
    · simp [hst]

theorem GetPublicHolidays_error_isRemote (remote : Remote) (w : World) (year : Int)
    (cc : String) (err : Error)
    (h : (GetPublicHolidays remote w year cc).1 = .error err) : err.isRemote = true := by
  unfold GetPublicHolidays at h
  cases hr : remote w.requests.length year cc with
  | requestFailed c => rw [hr] at h; cases h; rfl
  | transportFailed c => rw [hr] at h; cases h; rfl
  | response st body =>
    rw [hr] at h
    by_cases hst : st = 200
    · cases body with
      | error c => simp [hst] at h; cases h; rfl
      | ok hs => simp [hst] at h
    · simp [hst] at h; cases h; rfl

theorem populate_map (dateStr : String) (holidays : List Holiday)
    (m : String → Option Bool) (b : Bool) (s : String) :
    (populate dateStr holidays (m, b)).1 s =
      if s ∈ holidays.map (fun h => h.Date) then some true else m s := by
  induction holidays generalizing m b with
  | nil => simp [populate]
  | cons h rest ih =>
    rw [populate, ih]
    by_cases hs : s ∈ rest.map (fun h => h.Date)
    · simp [hs]
    · by_cases hh : s = h.Date
      · simp [hh, mapSet]
      · simp [hs, hh, mapSet]

theorem populate_flag (dateStr : String) (holidays : List Holiday)
    (m : String → Option Bool) (b : Bool) :
    (populate dateStr holidays (m, b)).2 =
      (b || decide (dateStr ∈ holidays.map (fun h => h.Date))) := by
  induction holidays generalizing m b with
  | nil => simp [populate]
  | cons h rest ih =>
    rw [populate, ih]
    by_cases hh : h.Date = dateStr
    · simp [hh]
    · have hh2 : ¬ dateStr = h.Date := fun e => hh e.symm
      simp [hh, hh2]

/-! ## Lemmas on `IsPublicHoliday` -/

theorem IsPublicHoliday_eq (remote : Remote) (w : World) (date : Date) :
    IsPublicHoliday remote w date =
      match w.cache.lookup date.Time.Year date.String with
      | some isHoliday => ((isHoliday, none), w)
      | none => fetchAndPopulate remote w date.Time.Year date.String := by
  simp only [IsPublicHoliday, Cache.lookup]
  cases w.cache date.Time.Year with
  | none => rfl
  | some yc => cases yc date.String <;> rfl

theorem fetchAndPopulate_requests (remote : Remote) (w : World) (year : Int) (ds : String) :
    (fetchAndPopulate remote w year ds).2.requests = w.requests ++ [(year, "GB")] := by
  have h := GetPublicHolidays_requests remote w year "GB"
  unfold fetchAndPopulate
  rcases hg : GetPublicHolidays remote w year "GB" with ⟨r, w1⟩
  rw [hg] at h
  cases r with
  | error e => exact h
  | ok hs => exact h

theorem fetchAndPopulate_error (remote : Remote) (w : World) (year : Int) (ds : String)
    (err : Error) (h : (GetPublicHolidays remote w year "GB").1 = .error err) :
    (fetchAndPopulate remote w year ds).1 = (false, some err) ∧
      (fetchAndPopulate remote w year ds).2.cache = w.cache := by
  have hc := GetPublicHolidays_cache remote w year "GB"
  unfold fetchAndPopulate
  rcases hg : GetPublicHolidays remote w year "GB" with ⟨r, w1⟩
  rw [hg] at h hc
  cases r with
  | error e => cases h; exact ⟨rfl, hc⟩
  | ok hs => cases h

theorem fetchAndPopulate_ok (remote : Remote) (w : World) (year : Int) (ds : String)
    (holidays : List Holiday) (h : (GetPublicHolidays remote w year "GB").1 = .ok holidays) :
    (fetchAndPopulate remote w year ds).1 =
        (decide (ds ∈ holidays.map (fun h => h.Date)), none) ∧
      (fetchAndPopulate remote w year ds).2.cache =
        mapSet w.cache year (fun s =>
          if s ∈ holidays.map (fun h => h.Date) then some true
          else match w.cache year with
            | none => none
            | some m => m s) := by
  have hc := GetPublicHolidays_cache remote w year "GB"
  unfold fetchAndPopulate
  rcases hg : GetPublicHolidays remote w year "GB" with ⟨r, w1⟩
  rw [hg] at h hc
  cases r with
  | error e => cases h
  | ok hs =>
    cases h
    simp only at hc
    refine ⟨?_, ?_⟩
    · simp [populate_flag]
    · simp only [hc]
      have hm : (populate ds holidays
          (match (motive := Option (String → Option Bool) → String → Option Bool)
              w.cache year with
            | none => fun _ => none
            | some m => m, false)).1 =
          (fun s => if s ∈ holidays.map (fun h => h.Date) then some true
            else match w.cache year with
              | none => none
              | some m => m s) := by
        funext s
        rw [populate_map]
        cases w.cache year <;> rfl
      rw [hm]

theorem fetchAndPopulate_error_isRemote (remote : Remote) (w : World) (year : Int)
    (ds : String) (err : Error)
    (h : (fetchAndPopulate remote w year ds).1.2 = some err) : err.isRemote = true := by
  cases hg : (GetPublicHolidays remote w year "GB").1 with
  | error e =>
    rw [(fetchAndPopulate_error remote w year ds e hg).1] at h
    simp only [Option.some.injEq] at h
    exact h ▸ GetPublicHolidays_error_isRemote remote w year "GB" e hg
  | ok hs =>
    rw [(fetchAndPopulate_ok remote w year ds hs hg).1] at h
    cases h

theorem IsPublicHoliday_error_isRemote (remote : Remote) (w : World) (date : Date)
    (err : Error) (h : (IsPublicHoliday remote w date).1.2 = some err) :
    err.isRemote = true := by
  rw [IsPublicHoliday_eq] at h
  cases hl : w.cache.lookup date.Time.Year date.String with
  | some b => rw [hl] at h; cases h
  | none =>
    rw [hl] at h
    exact fetchAndPopulate_error_isRemote remote w _ _ err h

/-- An error returned by `IsPublicHoliday` leaves the cache as it was. -/
theorem IsPublicHoliday_error_cache (remote : Remote) (w : World) (date : Date)
    (err : Error) (h : (IsPublicHoliday remote w date).1.2 = some err) :
    (IsPublicHoliday remote w date).2.cache = w.cache := by
  rw [IsPublicHoliday_eq] at h ⊢
  cases hl : w.cache.lookup date.Time.Year date.String with
  | some b => rfl
  | none =>
    rw [hl] at h
    simp only
    cases hg : (GetPublicHolidays remote w date.Time.Year "GB").1 with
    | error e => exact (fetchAndPopulate_error remote w _ _ e hg).2
    | ok hs =>
      rw [(fetchAndPopulate_ok remote w _ date.String hs hg).1] at h
      cases h

/-- A date string stored under its year is answered without any effect. -/
theorem IsPublicHoliday_of_stored (remote : Remote) (w : World) (date : Date)
    (yearCache : String → Option Bool) (isHoliday : Bool)
    (hyear : w.cache date.Time.Year = some yearCache)
    (hdate : yearCache date.String = some isHoliday) :
    IsPublicHoliday remote w date = ((isHoliday, none), w) := by
  rw [IsPublicHoliday_eq]
  simp [Cache.lookup, hyear, hdate]

theorem Cache.lookup_none_of_year_absent (c : Cache) (year : Int) (ds : String)
    (h : c year = none) : c.lookup year ds = none := by
  simp [Cache.lookup, h]

/-- A call that the cache does not answer records one request for the year. -/
theorem IsPublicHoliday_miss_requests (remote : Remote) (w : World) (date : Date)
    (h : w.cache.lookup date.Time.Year date.String = none) :
    (IsPublicHoliday remote w date).2.requests = w.requests ++ [(date.Time.Year, "GB")] := by
  rw [IsPublicHoliday_eq, h]
  exact fetchAndPopulate_requests remote w _ _

/-! ## Lemmas on the time arithmetic of `ValidateDate` -/

theorem Time.localDay_Truncate_UTC (t : Time) :
    (t.UTC.Truncate dayNanos).localDay = t.UTC.localDay := by
  simp only [Time.Truncate, Time.UTC, Time.localDay, dayNanos]
  norm_num
  omega

theorem Time.Weekday_Truncate_UTC (t : Time) :
    (t.UTC.Truncate dayNanos).Weekday = t.UTC.Weekday := by
  simp only [Time.Weekday, Time.localDay_Truncate_UTC]

theorem Time.Before_Truncate_UTC (t u : Time) :
    (t.UTC.Truncate dayNanos).Before (u.UTC.Truncate dayNanos) =
      decide (t.UTC.localDay < u.UTC.localDay) := by
  simp only [Time.Truncate, Time.UTC, Time.localDay, Time.Before, dayNanos]
  norm_num
  omega

/-! ## The cache-first holiday check -/

/-- C1 (as amended): when the date's own string is a key of the map cached
for its year, `IsPublicHoliday` returns the stored boolean with a nil error,
sends no request to the remote source and leaves the cache as it is,
whatever the remote source would answer. -/
theorem IsPublicHoliday_cache_hit (remote : Remote) (w : World) (date : Date)
    (yearCache : String → Option Bool) (isHoliday : Bool)
    (hyear : w.cache date.Time.Year = some yearCache)
    (hdate : yearCache date.String = some isHoliday) :
    IsPublicHoliday remote w date = ((isHoliday, none), w) :=
  IsPublicHoliday_of_stored remote w date yearCache isHoliday hyear hdate

/-- Witness of C1 (as amended): Christmas Day 2025 answered from the cache
while the remote source is down. -/
theorem IsPublicHoliday_cache_hit_witness :
    cacheChristmas2025 (createDate 739609 0).Time.Year
        = some (mapSet (fun _ => none) "2025-12-25" true) ∧
      mapSet (fun _ => none) "2025-12-25" true (createDate 739609 0).String = some true ∧
      IsPublicHoliday remoteDown ⟨cacheChristmas2025, []⟩ (createDate 739609 0)
        = ((true, none), ⟨cacheChristmas2025, []⟩) :=
  ⟨rfl, by decide,
    IsPublicHoliday_cache_hit remoteDown ⟨cacheChristmas2025, []⟩ (createDate 739609 0)
      (mapSet (fun _ => none) "2025-12-25" true) true rfl (by decide)⟩

/-- C1 as stated fails: with the year 2025 present in the cache (with an
empty date set), the call for Monday 2025-06-02 sends a request to the
remote source. -/
theorem IsPublicHoliday_cached_year_fetches :
    (createDate 739403 0).Time.Year = 2025 ∧
      (cacheEmpty2025 2025).isSome = true ∧
      (IsPublicHoliday (remoteAlways []) ⟨cacheEmpty2025, []⟩ (createDate 739403 0)).2.requests
        = [(2025, "GB")] := by
  decide

/-- C2 (as amended): with the year present in the cache, two consecutive
calls of `IsPublicHoliday` for a date return the same result when the date's
own string is a key of the year's map (whatever the remote source does), or
when the remote source gives the second exchange the outcome of the
first. -/
theorem IsPublicHoliday_twice (remote : Remote) (w : World) (date : Date)
    (yearCache : String → Option Bool)
    (hyear : w.cache date.Time.Year = some yearCache)
    (h : (∃ b, yearCache date.String = some b) ∨
      remote (w.requests.length + 1) date.Time.Year "GB"
        = remote w.requests.length date.Time.Year "GB") :
    (IsPublicHoliday remote (IsPublicHoliday remote w date).2 date).1
      = (IsPublicHoliday remote w date).1 := by
  cases hd : yearCache date.String with
  | some b =>
    rw [IsPublicHoliday_of_stored remote w date yearCache b hyear hd]
    simp only
    rw [IsPublicHoliday_of_stored remote w date yearCache b hyear hd]
  | none =>
    rcases h with ⟨b, hb⟩ | hsame
    · rw [hd] at hb; cases hb
    · have hl : w.cache.lookup date.Time.Year date.String = none := by
        simp [Cache.lookup, hyear, hd]
      have hreq := IsPublicHoliday_miss_requests remote w date hl
      -- the second exchange answers as the first
      have hsec : ∀ w2 : World, w2.requests = w.requests ++ [(date.Time.Year, "GB")] →
          (GetPublicHolidays remote w2 date.Time.Year "GB").1
            = (GetPublicHolidays remote w date.Time.Year "GB").1 := by
        intro w2 hw2
        unfold GetPublicHolidays
        rw [hw2, List.length_append, List.length_singleton, hsame]
        cases remote w.requests.length date.Time.Year "GB" with
        | requestFailed c => rfl
        | transportFailed c => rfl
        | response st body =>
          by_cases hst : st = 200
          · cases body <;> simp [hst]
          · simp [hst]
      have h1 : IsPublicHoliday remote w date
          = fetchAndPopulate remote w date.Time.Year date.String := by
        rw [IsPublicHoliday_eq, hl]
      rw [h1] at hreq ⊢
      cases hg : (GetPublicHolidays remote w date.Time.Year "GB").1 with
      | error e =>
        obtain ⟨hr, hc⟩ := fetchAndPopulate_error remote w _ date.String e hg
        have hl2 : (fetchAndPopulate remote w date.Time.Year date.String).2.cache.lookup
            date.Time.Year date.String = none := by rw [hc]; exact hl
        rw [IsPublicHoliday_eq, hl2, hr]
        simp only
        exact (fetchAndPopulate_error remote _ _ date.String e
          ((hsec _ hreq).trans hg)).1
      | ok hs =>
        obtain ⟨hr, hc⟩ := fetchAndPopulate_ok remote w _ date.String hs hg
        rw [hr]
        by_cases hin : date.String ∈ hs.map (fun h => h.Date)
        · have hl2 : (fetchAndPopulate remote w date.Time.Year date.String).2.cache.lookup
              date.Time.Year date.String = some true := by
            rw [hc]
            simp only [Cache.lookup, mapSet, if_true, eq_self_iff_true]
            exact if_pos hin
          rw [IsPublicHoliday_eq, hl2]
          simp [hin]
        · have hl2 : (fetchAndPopulate remote w date.Time.Year date.String).2.cache.lookup
              date.Time.Year date.String = none := by
            rw [hc]
            simp only [Cache.lookup, mapSet, if_true, eq_self_iff_true]
            rw [if_neg hin, hyear]
            exact hd
          rw [IsPublicHoliday_eq, hl2]
          simp only
          exact (fetchAndPopulate_ok remote _ _ date.String hs
            ((hsec _ hreq).trans hg)).1

/-- Witness of C2 (as amended): 2025-06-02 asked twice with the year 2025
cached empty and a remote source that always answers with Christmas Day. -/
theorem IsPublicHoliday_twice_witness :
    cacheEmpty2025 (createDate 739403 0).Time.Year = some (fun _ => none) ∧
      (IsPublicHoliday (remoteAlways [holidayOn "2025-12-25" "Christmas Day"])
          (IsPublicHoliday (remoteAlways [holidayOn "2025-12-25" "Christmas Day"])
            ⟨cacheEmpty2025, []⟩ (createDate 739403 0)).2 (createDate 739403 0)).1
        = (IsPublicHoliday (remoteAlways [holidayOn "2025-12-25" "Christmas Day"])
            ⟨cacheEmpty2025, []⟩ (createDate 739403 0)).1 :=
  ⟨rfl, IsPublicHoliday_twice (remoteAlways [holidayOn "2025-12-25" "Christmas Day"])
    ⟨cacheEmpty2025, []⟩ (createDate 739403 0) (fun _ => none) rfl (Or.inr rfl)⟩

/-- C2 as stated fails: with the year 2025 present in the cache, the first
call for 2025-06-02 meets a timeout and returns an error, the second call
fetches again, succeeds and returns `(false, nil)`. -/
theorem IsPublicHoliday_twice_differs :
    (cacheEmpty2025 (createDate 739403 0).Time.Year).isSome = true ∧
      (IsPublicHoliday (remoteDownOnce []) ⟨cacheEmpty2025, []⟩ (createDate 739403 0)).1
        = (false, some (.failedToFetch "timeout")) ∧
      (IsPublicHoliday (remoteDownOnce [])
          (IsPublicHoliday (remoteDownOnce []) ⟨cacheEmpty2025, []⟩ (createDate 739403 0)).2
          (createDate 739403 0)).1 = (false, none) := by
  decide

/-! ## The validation chain -/

/-- Past the two local checks, `ValidateDate` is decided by the holiday
check. -/
theorem ValidateDate_holiday_step (remote : Remote) (clock : Time) (w : World)
    (visitDate : Date)
    (hpast : (visitDate.Time.UTC.Truncate dayNanos).Before (clock.UTC.Truncate dayNanos) = false)
    (hweek : visitDate.Time.UTC.Weekday ≠ 6 ∧ visitDate.Time.UTC.Weekday ≠ 0) :
    ValidateDate remote clock w visitDate =
      match IsPublicHoliday remote w visitDate with
      | ((_, some err), w1) => (some err, w1)
      | ((isHoliday, none), w1) =>
        if isHoliday then (some .ErrDateIsHoliday, w1) else (none, w1) := by
  have hw : ¬ ((visitDate.Time.UTC.Truncate dayNanos).Weekday = 6 ∨
      (visitDate.Time.UTC.Truncate dayNanos).Weekday = 0) := by
    rw [Time.Weekday_Truncate_UTC]
    exact fun h => h.elim hweek.1 hweek.2
  simp only [ValidateDate, hpast, if_neg hw]
  simp

/-- The first test of `ValidateDate`: a past candidate. -/
theorem ValidateDate_of_before (remote : Remote) (clock : Time) (w : World)
    (visitDate : Date)
    (h : (visitDate.Time.UTC.Truncate dayNanos).Before (clock.UTC.Truncate dayNanos) = true) :
    ValidateDate remote clock w visitDate = (some .ErrDateInPast, w) := by
  simp only [ValidateDate, h, if_true]

/-- The second test of `ValidateDate`: a candidate of today or later on a
Saturday or Sunday. -/
theorem ValidateDate_of_weekend (remote : Remote) (clock : Time) (w : World)
    (visitDate : Date)
    (hpast : (visitDate.Time.UTC.Truncate dayNanos).Before (clock.UTC.Truncate dayNanos) = false)
    (hweek : visitDate.Time.UTC.Weekday = 6 ∨ visitDate.Time.UTC.Weekday = 0) :
    ValidateDate remote clock w visitDate = (some .ErrDateIsWeekend, w) := by
  have hw2 : (visitDate.Time.UTC.Truncate dayNanos).Weekday = 6 ∨
      (visitDate.Time.UTC.Truncate dayNanos).Weekday = 0 := by
    rw [Time.Weekday_Truncate_UTC]; exact hweek
  simp [ValidateDate, hpast, hw2]

/-- C3: for a candidate that is neither past nor a weekend, an error of the
holiday lookup is what `ValidateDate` returns: not nil, none of the three
domain rejections, and the cache is as it was before the call, so that a
year that was absent is still absent. -/
theorem ValidateDate_lookup_failure (remote : Remote) (clock : Time) (w : World)
    (visitDate : Date) (err : Error)
    (hpast : (visitDate.Time.UTC.Truncate dayNanos).Before (clock.UTC.Truncate dayNanos) = false)
    (hweek : visitDate.Time.UTC.Weekday ≠ 6 ∧ visitDate.Time.UTC.Weekday ≠ 0)
    (hfail : (IsPublicHoliday remote w visitDate).1.2 = some err) :
    (ValidateDate remote clock w visitDate).1 = some err ∧
      err ≠ .ErrDateInPast ∧ err ≠ .ErrDateIsWeekend ∧ err ≠ .ErrDateIsHoliday ∧
      (ValidateDate remote clock w visitDate).2.cache = w.cache ∧
      (w.cache visitDate.Time.Year = none →
        (ValidateDate remote clock w visitDate).2.cache visitDate.Time.Year = none) := by
  have hrem := IsPublicHoliday_error_isRemote remote w visitDate err hfail
  have hcache := IsPublicHoliday_error_cache remote w visitDate err hfail
  have hv := ValidateDate_holiday_step remote clock w visitDate hpast hweek
  rcases hr : IsPublicHoliday remote w visitDate with ⟨⟨b, e⟩, w1⟩
  rw [hr] at hfail hcache hv
  simp only at hfail hcache
  subst hfail
  simp only at hv
  rw [hv]
  refine ⟨rfl, ?_, ?_, ?_, hcache, ?_⟩
  · intro h; rw [h] at hrem; cases hrem
  · intro h; rw [h] at hrem; cases hrem
  · intro h; rw [h] at hrem; cases hrem
  · intro h; simp only [hcache]; exact h

/-- Witness of C3: on Wednesday 2025-05-28 the candidate Monday 2025-06-02
is validated with an empty cache while the remote source times out. -/
theorem ValidateDate_lookup_failure_witness :
    (ValidateDate remoteDown (createDate 739398 0).Time World.init (createDate 739403 0)).1
        = some (.failedToFetch "timeout") ∧
      (ValidateDate remoteDown (createDate 739398 0).Time World.init
        (createDate 739403 0)).2.cache = emptyCache :=
  have h := ValidateDate_lookup_failure remoteDown (createDate 739398 0).Time World.init
    (createDate 739403 0) (.failedToFetch "timeout") (by decide) (by decide) (by decide)
  ⟨h.1, h.2.2.2.2.1⟩

/-- C4 (as amended): when the date is not answered by the cache and the
fetch fails, `IsPublicHoliday` returns `(false, that error)` and leaves the
cache as it was; the next call for the same date, and for any date of that
year whose string is not a key of the year's map, sends a fresh request
for the year. -/
theorem IsPublicHoliday_fetch_failure (remote : Remote) (w : World) (date : Date)
    (err : Error)
    (hmiss : w.cache.lookup date.Time.Year date.String = none)
    (hfail : (GetPublicHolidays remote w date.Time.Year "GB").1 = .error err) :
    (IsPublicHoliday remote w date).1 = (false, some err) ∧
      (IsPublicHoliday remote w date).2.cache = w.cache ∧
      (IsPublicHoliday remote (IsPublicHoliday remote w date).2 date).2.requests
        = (IsPublicHoliday remote w date).2.requests ++ [(date.Time.Year, "GB")] ∧
      ∀ next : Date, next.Time.Year = date.Time.Year →
        w.cache.lookup next.Time.Year next.String = none →
        (IsPublicHoliday remote (IsPublicHoliday remote w date).2 next).2.requests
          = (IsPublicHoliday remote w date).2.requests ++ [(date.Time.Year, "GB")] := by
  have h1 : IsPublicHoliday remote w date
      = fetchAndPopulate remote w date.Time.Year date.String := by
    rw [IsPublicHoliday_eq, hmiss]
  obtain ⟨hr, hc⟩ := fetchAndPopulate_error remote w _ date.String err hfail
  rw [← h1] at hr hc
  have hnext : ∀ next : Date, next.Time.Year = date.Time.Year →
      w.cache.lookup next.Time.Year next.String = none →
      (IsPublicHoliday remote (IsPublicHoliday remote w date).2 next).2.requests
        = (IsPublicHoliday remote w date).2.requests ++ [(date.Time.Year, "GB")] := by
    intro next hy hn
    have hn2 : (IsPublicHoliday remote w date).2.cache.lookup next.Time.Year next.String
        = none := by rw [hc]; exact hn
    rw [IsPublicHoliday_miss_requests remote _ next hn2, hy]
  exact ⟨hr, hc, hnext date rfl hmiss, hnext⟩

/-- Witness of C4 (as amended): with Christmas Day 2025 cached and the
remote source down, the call for 2025-06-02 fails and the next call for
2025-06-02 sends a second request. -/
theorem IsPublicHoliday_fetch_failure_witness :
    (IsPublicHoliday remoteDown ⟨cacheChristmas2025, []⟩ (createDate 739403 0)).1
        = (false, some (.failedToFetch "timeout")) ∧
      (IsPublicHoliday remoteDown
          (IsPublicHoliday remoteDown ⟨cacheChristmas2025, []⟩ (createDate 739403 0)).2
          (createDate 739403 0)).2.requests
        = (IsPublicHoliday remoteDown ⟨cacheChristmas2025, []⟩
            (createDate 739403 0)).2.requests ++ [((createDate 739403 0).Time.Year, "GB")] :=
  have h := IsPublicHoliday_fetch_failure remoteDown ⟨cacheChristmas2025, []⟩
    (createDate 739403 0) (.failedToFetch "timeout") (by decide) rfl
  ⟨h.1, h.2.2.1⟩

/-- C4 as stated fails: with Christmas Day 2025 cached, the fetch of the
call for 2025-06-02 fails; the next call for the same year, for
2025-12-25, is answered from the cache and sends no request. -/
theorem IsPublicHoliday_failure_then_hit :
    (IsPublicHoliday remoteDown ⟨cacheChristmas2025, []⟩ (createDate 739403 0)).1
        = (false, some (.failedToFetch "timeout")) ∧
      (createDate 739609 0).Time.Year = (createDate 739403 0).Time.Year ∧
      (IsPublicHoliday remoteDown ⟨cacheChristmas2025, []⟩ (createDate 739403 0)).2.requests
        = [(2025, "GB")] ∧
      (IsPublicHoliday remoteDown
          (IsPublicHoliday remoteDown ⟨cacheChristmas2025, []⟩ (createDate 739403 0)).2
          (createDate 739609 0)).2.requests = [(2025, "GB")] := by
  decide

/-- C5: a candidate whose UTC-midnight-truncated instant is strictly before
the truncated clock instant gets `ErrDateInPast`, whatever its weekday, the
cache and the remote source; the state is untouched. A past Saturday or
Sunday is therefore rejected as past, not as a weekend. -/
theorem ValidateDate_past (remote : Remote) (clock : Time) (w : World) (visitDate : Date)
    (h : (visitDate.Time.UTC.Truncate dayNanos).Before (clock.UTC.Truncate dayNanos) = true) :
    ValidateDate remote clock w visitDate = (some .ErrDateInPast, w) :=
  ValidateDate_of_before remote clock w visitDate h

/-- Witness of C5: on Monday 2025-06-02 at noon, the candidate Saturday
2025-05-31 is rejected as past. -/
theorem ValidateDate_past_witness :
    (createDate 739401 0).Time.UTC.Weekday = 6 ∧
      ((createDate 739401 0).Time.UTC.Truncate dayNanos).Before
        ((createDate 739403 43200000000000).Time.UTC.Truncate dayNanos) = true ∧
      ValidateDate (remoteAlways []) (createDate 739403 43200000000000).Time World.init
        (createDate 739401 0) = (some .ErrDateInPast, World.init) :=
  ⟨by decide, by decide,
    ValidateDate_past (remoteAlways []) (createDate 739403 43200000000000).Time World.init
      (createDate 739401 0) (by decide)⟩

/-- C6: a candidate whose instant falls on the UTC calendar day of the
clock, at any time of that day, is never answered `ErrDateInPast`. -/
theorem ValidateDate_today_not_past (remote : Remote) (clock : Time) (w : World)
    (visitDate : Date) (h : visitDate.Time.UTC.localDay = clock.UTC.localDay) :
    (ValidateDate remote clock w visitDate).1 ≠ some .ErrDateInPast := by
  have hpast : (visitDate.Time.UTC.Truncate dayNanos).Before
      (clock.UTC.Truncate dayNanos) = false := by
    rw [Time.Before_Truncate_UTC, h]
    simp
  by_cases hw : visitDate.Time.UTC.Weekday = 6 ∨ visitDate.Time.UTC.Weekday = 0
  · rw [ValidateDate_of_weekend remote clock w visitDate hpast hw]
    simp
  · have hweek : visitDate.Time.UTC.Weekday ≠ 6 ∧ visitDate.Time.UTC.Weekday ≠ 0 :=
      ⟨fun e => hw (Or.inl e), fun e => hw (Or.inr e)⟩
    rw [ValidateDate_holiday_step remote clock w visitDate hpast hweek]
    rcases hr : IsPublicHoliday remote w visitDate with ⟨⟨b, e⟩, w1⟩
    cases e with
    | some err =>
      have hrem := IsPublicHoliday_error_isRemote remote w visitDate err (by rw [hr])
      intro hc
      simp only [Option.some.injEq] at hc
      rw [hc] at hrem
      cases hrem
    | none => cases b <;> simp

/-- Witness of C6: the clock is Monday 2025-06-02 18:00 UTC, the candidate
is the same day at 09:00 UTC. -/
theorem ValidateDate_today_not_past_witness :
    (createDate 739403 32400000000000).Time.ns < (createDate 739403 64800000000000).Time.ns ∧
      (ValidateDate (remoteAlways []) (createDate 739403 64800000000000).Time World.init
        (createDate 739403 32400000000000)).1 ≠ some .ErrDateInPast :=
  ⟨by decide,
    ValidateDate_today_not_past (remoteAlways []) (createDate 739403 64800000000000).Time
      World.init (createDate 739403 32400000000000) (by decide)⟩

/-- C7: a candidate that is not before today (comparison of the
UTC-midnight-truncated instants) and whose UTC weekday is Saturday or Sunday
gets `ErrDateIsWeekend`, whatever the cache holds and the remote source
would answer; the state is untouched. -/
theorem ValidateDate_weekend (remote : Remote) (clock : Time) (w : World) (visitDate : Date)
    (hpast : (visitDate.Time.UTC.Truncate dayNanos).Before (clock.UTC.Truncate dayNanos) = false)
    (hweek : visitDate.Time.UTC.Weekday = 6 ∨ visitDate.Time.UTC.Weekday = 0) :
    ValidateDate remote clock w visitDate = (some .ErrDateIsWeekend, w) :=
  ValidateDate_of_weekend remote clock w visitDate hpast hweek

/-- Witness of C7: on Monday 2025-06-02 the candidate Sunday 2025-06-08 at
15:00 UTC is rejected as a weekend, the remote source being down. -/
theorem ValidateDate_weekend_witness :
    (createDate 739409 54000000000000).Time.UTC.Weekday = 0 ∧
      ValidateDate remoteDown (createDate 739403 0).Time World.init
        (createDate 739409 54000000000000) = (some .ErrDateIsWeekend, World.init) :=
  ⟨by decide,
    ValidateDate_weekend remoteDown (createDate 739403 0).Time World.init
      (createDate 739409 54000000000000) (by decide) (Or.inr (by decide))⟩

/-- C8: whenever `ValidateDate` returns `ErrDateInPast` or
`ErrDateIsWeekend`, no request has been sent to the remote source and the
cache is the one from before the call. -/
theorem ValidateDate_local_rejection_frame (remote : Remote) (clock : Time) (w : World)
    (visitDate : Date)
    (h : (ValidateDate remote clock w visitDate).1 = some .ErrDateInPast ∨
      (ValidateDate remote clock w visitDate).1 = some .ErrDateIsWeekend) :
    (ValidateDate remote clock w visitDate).2.requests = w.requests ∧
      (ValidateDate remote clock w visitDate).2.cache = w.cache := by
  cases hpast : (visitDate.Time.UTC.Truncate dayNanos).Before (clock.UTC.Truncate dayNanos) with
  | true => rw [ValidateDate_of_before remote clock w visitDate hpast]; exact ⟨rfl, rfl⟩
  | false =>
    by_cases hw : visitDate.Time.UTC.Weekday = 6 ∨ visitDate.Time.UTC.Weekday = 0
    · rw [ValidateDate_of_weekend remote clock w visitDate hpast hw]; exact ⟨rfl, rfl⟩
    · have hweek : visitDate.Time.UTC.Weekday ≠ 6 ∧ visitDate.Time.UTC.Weekday ≠ 0 :=
        ⟨fun e => hw (Or.inl e), fun e => hw (Or.inr e)⟩
      exfalso
      rw [ValidateDate_holiday_step remote clock w visitDate hpast hweek] at h
      rcases hr : IsPublicHoliday remote w visitDate with ⟨⟨b, e⟩, w1⟩
      rw [hr] at h
      cases e with
      | some err =>
        have hrem := IsPublicHoliday_error_isRemote remote w visitDate err (by rw [hr])
        simp only [Option.some.injEq] at h
        rcases h with h | h <;> · rw [h] at hrem; cases hrem
      | none => cases b <;> simp at h

/-- Witness of C8: the weekend rejection of Sunday 2025-06-08 leaves the
cached Christmas Day and the empty request list as they were. -/
theorem ValidateDate_local_rejection_frame_witness :
    (ValidateDate (remoteAlways []) (createDate 739403 0).Time ⟨cacheChristmas2025, []⟩
        (createDate 739409 0)).1 = some .ErrDateIsWeekend ∧
      (ValidateDate (remoteAlways []) (createDate 739403 0).Time ⟨cacheChristmas2025, []⟩
        (createDate 739409 0)).2.requests = [] ∧
      (ValidateDate (remoteAlways []) (createDate 739403 0).Time ⟨cacheChristmas2025, []⟩
        (createDate 739409 0)).2.cache = cacheChristmas2025 :=
  ⟨by decide,
    ValidateDate_local_rejection_frame (remoteAlways []) (createDate 739403 0).Time
      ⟨cacheChristmas2025, []⟩ (createDate 739409 0) (Or.inr (by decide))⟩

/-- C9: for a candidate that is neither past nor a weekend and whose year
is absent from the cache, a successful fetch makes `ValidateDate` return
`ErrDateIsHoliday` when the candidate's YYYY-MM-DD string is the date of
some fetched holiday, and nil otherwise; an empty fetched list gives nil. -/
theorem ValidateDate_fetch_success (remote : Remote) (clock : Time) (w : World)
    (visitDate : Date) (holidays : List Holiday)
    (hpast : (visitDate.Time.UTC.Truncate dayNanos).Before (clock.UTC.Truncate dayNanos) = false)
    (hweek : visitDate.Time.UTC.Weekday ≠ 6 ∧ visitDate.Time.UTC.Weekday ≠ 0)
    (habsent : w.cache visitDate.Time.Year = none)
    (hfetch : (GetPublicHolidays remote w visitDate.Time.Year "GB").1 = .ok holidays) :
    (ValidateDate remote clock w visitDate).1 =
        (if visitDate.String ∈ holidays.map (fun h => h.Date)
          then some .ErrDateIsHoliday else none) ∧
      (holidays = [] → (ValidateDate remote clock w visitDate).1 = none) := by
  have hl := Cache.lookup_none_of_year_absent w.cache _ visitDate.String habsent
  have h1 : IsPublicHoliday remote w visitDate
      = fetchAndPopulate remote w visitDate.Time.Year visitDate.String := by
    rw [IsPublicHoliday_eq, hl]
  have hr := (fetchAndPopulate_ok remote w _ visitDate.String holidays hfetch).1
  rw [← h1] at hr
  have hv := ValidateDate_holiday_step remote clock w visitDate hpast hweek
  rcases hi : IsPublicHoliday remote w visitDate with ⟨⟨b, e⟩, w1⟩
  rw [hi] at hr hv
  simp only [Prod.mk.injEq] at hr
  obtain ⟨hb, he⟩ := hr
  subst he
  simp only at hv
  have hmain : (ValidateDate remote clock w visitDate).1 =
      (if visitDate.String ∈ holidays.map (fun h => h.Date)
        then some .ErrDateIsHoliday else none) := by
    rw [hv]
    by_cases hin : visitDate.String ∈ holidays.map (fun h => h.Date)
    · rw [if_pos hin]
      have hbt : b = true := by rw [hb]; exact decide_eq_true hin
      rw [hbt]; rfl
    · rw [if_neg hin]
      have hbf : b = false := by rw [hb]; exact decide_eq_false hin
      rw [hbf]; rfl
  refine ⟨hmain, ?_⟩
  intro hnil
  rw [hmain, hnil]
  rfl

/-- Witness of C9: on Monday 2025-12-01 with an empty cache, the candidate
Thursday 2025-12-25 is a holiday when the fetched list holds 2025-12-25. -/
theorem ValidateDate_fetch_success_witness :
    (createDate 739609 0).String = "2025-12-25" ∧
      (ValidateDate (remoteAlways [holidayOn "2025-12-25" "Christmas Day"])
        (createDate 739585 0).Time World.init (createDate 739609 0)).1
        = some .ErrDateIsHoliday :=
  ⟨by decide,
    (ValidateDate_fetch_success (remoteAlways [holidayOn "2025-12-25" "Christmas Day"])
      (createDate 739585 0).Time World.init (createDate 739609 0)
      [holidayOn "2025-12-25" "Christmas Day"] (by decide) (by decide) rfl rfl).1.trans
      (by decide)⟩

/-- C10: when the year of the date is absent from the cache and the fetch
succeeds, after `IsPublicHoliday` the cache holds that year with a map whose
keys are exactly the dates of the fetched holidays (each stored as `true`;
the year is there also when the list is empty), and every other year is as
before. -/
theorem IsPublicHoliday_populates (remote : Remote) (w : World) (date : Date)
    (holidays : List Holiday)
    (habsent : w.cache date.Time.Year = none)
    (hfetch : (GetPublicHolidays remote w date.Time.Year "GB").1 = .ok holidays) :
    (∃ yearCache, (IsPublicHoliday remote w date).2.cache date.Time.Year = some yearCache ∧
        ∀ s, yearCache s = if s ∈ holidays.map (fun h => h.Date) then some true else none) ∧
      ∀ year, year ≠ date.Time.Year →
        (IsPublicHoliday remote w date).2.cache year = w.cache year := by
  have hl := Cache.lookup_none_of_year_absent w.cache _ date.String habsent
  have h1 : IsPublicHoliday remote w date
      = fetchAndPopulate remote w date.Time.Year date.String := by
    rw [IsPublicHoliday_eq, hl]
  have hc := (fetchAndPopulate_ok remote w _ date.String holidays hfetch).2
  rw [← h1] at hc
  rw [hc]
  refine ⟨⟨fun s => if s ∈ holidays.map (fun h => h.Date) then some true else none, ?_,
    fun s => rfl⟩, ?_⟩
  · simp only [mapSet, if_true, eq_self_iff_true, habsent]
  · intro year hne
    simp only [mapSet, if_neg hne]

/-- Witness of C10: from the empty cache, a successful fetch of an empty
list for 2025-06-02 leaves the year 2025 present with no date. -/
theorem IsPublicHoliday_populates_witness :
    ∃ yearCache, (IsPublicHoliday (remoteAlways []) World.init
        (createDate 739403 0)).2.cache (createDate 739403 0).Time.Year = some yearCache ∧
      ∀ s, yearCache s = if s ∈ ([] : List Holiday).map (fun h => h.Date)
        then some true else none :=
  (IsPublicHoliday_populates (remoteAlways []) World.init (createDate 739403 0) []
    rfl rfl).1

/-! ## The appointment service -/

/-- A request with an empty name is turned away before any call. -/
theorem CreateAppointment_of_empty_name {σ ρ : Type} (hs : HolidayServiceInterface σ)
    (rp : AppointmentRepository ρ) (s : ServiceState σ ρ) (req : CreateAppointmentRequest)
    (h : req.FirstName = "" ∨ req.LastName = "") :
    AppointmentService.CreateAppointment hs rp s req = ((none, some .ErrInvalidInput), s) := by
  simp only [AppointmentService.CreateAppointment, if_pos h]

/-- With names given and the date approved, `CreateAppointment` asks the
repository whether the date is taken. -/
theorem CreateAppointment_of_taken {σ ρ : Type} (hs : HolidayServiceInterface σ)
    (rp : AppointmentRepository ρ) (s : ServiceState σ ρ) (req : CreateAppointmentRequest)
    (hnames : req.FirstName ≠ "" ∧ req.LastName ≠ "")
    (hvalid : (hs.ValidateDate s.holiday req.VisitDate).1 = none)
    (htaken : (rp.ExistsByDate s.repo req.VisitDate).1 = (true, none)) :
    AppointmentService.CreateAppointment hs rp s req =
      ((none, some .ErrDuplicateAppointment),
        { holiday := (hs.ValidateDate s.holiday req.VisitDate).2,
          repo := (rp.ExistsByDate s.repo req.VisitDate).2,
          calls := s.calls ++ [.ValidateDate req.VisitDate, .ExistsByDate req.VisitDate] }) := by
  have hn : ¬ (req.FirstName = "" ∨ req.LastName = "") :=
    fun h => h.elim hnames.1 hnames.2
  rcases hv : hs.ValidateDate s.holiday req.VisitDate with ⟨e, h1⟩
  rcases hx : rp.ExistsByDate s.repo req.VisitDate with ⟨⟨b, e2⟩, r2⟩
  rw [hv] at hvalid
  rw [hx] at htaken
  simp only [Prod.mk.injEq] at hvalid htaken
  obtain ⟨hb, he2⟩ := htaken
  subst hvalid hb he2
  simp only [AppointmentService.CreateAppointment, if_neg hn, hv, hx, if_true]

/-- C12: a request whose FirstName or LastName is the empty string gets
`(nil, ErrInvalidInput)` whatever its visit date; the list of calls and the
states of the holiday service and of the repository are as before, so neither
`ValidateDate` nor a repository operation has been called. -/
theorem CreateAppointment_invalid_input {σ ρ : Type} (hs : HolidayServiceInterface σ)
    (rp : AppointmentRepository ρ) (s : ServiceState σ ρ) (req : CreateAppointmentRequest)
    (h : req.FirstName = "" ∨ req.LastName = "") :
    (AppointmentService.CreateAppointment hs rp s req).1 = (none, some .ErrInvalidInput) ∧
      (AppointmentService.CreateAppointment hs rp s req).2.calls = s.calls ∧
      (AppointmentService.CreateAppointment hs rp s req).2 = s := by
  rw [CreateAppointment_of_empty_name hs rp s req h]
  exact ⟨rfl, rfl, rfl⟩

/-- Witness of C12: a request without first name for Sunday 2025-06-08. -/
theorem CreateAppointment_invalid_input_witness :
    (AppointmentService.CreateAppointment (MockHolidayService none)
        (MockAppointmentRepository (false, none) none) ⟨(), (), []⟩
        ⟨"", "Doe", createDate 739409 0⟩).1 = (none, some .ErrInvalidInput) ∧
      (AppointmentService.CreateAppointment (MockHolidayService none)
        (MockAppointmentRepository (false, none) none) ⟨(), (), []⟩
        ⟨"", "Doe", createDate 739409 0⟩).2.calls = [] :=
  have h := CreateAppointment_invalid_input (MockHolidayService none)
    (MockAppointmentRepository (false, none) none) ⟨(), (), []⟩
    ⟨"", "Doe", createDate 739409 0⟩ (Or.inl rfl)
  ⟨h.1, h.2.1⟩

/-- C13: with non-empty names, an error of `ValidateDate` is returned
unchanged as `(nil, e)`; the only call made is `ValidateDate`, and the
repository is in the state it had before: it is consulted only after the
validator approves the date. -/
theorem CreateAppointment_validation_error {σ ρ : Type} (hs : HolidayServiceInterface σ)
    (rp : AppointmentRepository ρ) (s : ServiceState σ ρ) (req : CreateAppointmentRequest)
    (e : Error)
    (hnames : req.FirstName ≠ "" ∧ req.LastName ≠ "")
    (hinvalid : (hs.ValidateDate s.holiday req.VisitDate).1 = some e) :
    (AppointmentService.CreateAppointment hs rp s req).1 = (none, some e) ∧
      (AppointmentService.CreateAppointment hs rp s req).2.calls
        = s.calls ++ [.ValidateDate req.VisitDate] ∧
      (AppointmentService.CreateAppointment hs rp s req).2.repo = s.repo := by
  have hn : ¬ (req.FirstName = "" ∨ req.LastName = "") :=
    fun h => h.elim hnames.1 hnames.2
  rcases hv : hs.ValidateDate s.holiday req.VisitDate with ⟨e1, h1⟩
  rw [hv] at hinvalid
  simp only at hinvalid
  subst hinvalid
  simp only [AppointmentService.CreateAppointment, if_neg hn, hv]
  exact ⟨trivial, trivial, trivial⟩

/-- Witness of C13: the validator answers `ErrDateIsHoliday`. -/
theorem CreateAppointment_validation_error_witness :
    (AppointmentService.CreateAppointment (MockHolidayService (some .ErrDateIsHoliday))
        (MockAppointmentRepository (false, none) none) ⟨(), (), []⟩
        ⟨"John", "Doe", createDate 739609 0⟩).1 = (none, some .ErrDateIsHoliday) ∧
      (AppointmentService.CreateAppointment (MockHolidayService (some .ErrDateIsHoliday))
        (MockAppointmentRepository (false, none) none) ⟨(), (), []⟩
        ⟨"John", "Doe", createDate 739609 0⟩).2.calls
        = [] ++ [.ValidateDate (createDate 739609 0)] :=
  have h := CreateAppointment_validation_error (MockHolidayService (some .ErrDateIsHoliday))
    (MockAppointmentRepository (false, none) none) ⟨(), (), []⟩
    ⟨"John", "Doe", createDate 739609 0⟩ .ErrDateIsHoliday ⟨by decide, by decide⟩ rfl
  ⟨h.1, h.2.1⟩

/-- C14: with non-empty names and a date that passes validation, when
`ExistsByDate` reports true (with a nil error) the result is
`(nil, ErrDuplicateAppointment)` and the calls made are `ValidateDate` and
`ExistsByDate` only: `Create` is never called. -/
theorem CreateAppointment_duplicate {σ ρ : Type} (hs : HolidayServiceInterface σ)
    (rp : AppointmentRepository ρ) (s : ServiceState σ ρ) (req : CreateAppointmentRequest)
    (hnames : req.FirstName ≠ "" ∧ req.LastName ≠ "")
    (hvalid : (hs.ValidateDate s.holiday req.VisitDate).1 = none)
    (htaken : (rp.ExistsByDate s.repo req.VisitDate).1 = (true, none)) :
    (AppointmentService.CreateAppointment hs rp s req).1
        = (none, some .ErrDuplicateAppointment) ∧
      (AppointmentService.CreateAppointment hs rp s req).2.calls
        = s.calls ++ [.ValidateDate req.VisitDate, .ExistsByDate req.VisitDate] ∧
      ∀ appointment, Call.Create appointment ∉
        (AppointmentService.CreateAppointment hs rp s req).2.calls.drop s.calls.length := by
  rw [CreateAppointment_of_taken hs rp s req hnames hvalid htaken]
  refine ⟨rfl, rfl, ?_⟩
  intro appointment
  simp

/-- Witness of C14: the repository mock reports the date as taken. -/
theorem CreateAppointment_duplicate_witness :
    (AppointmentService.CreateAppointment (MockHolidayService none)
        (MockAppointmentRepository (true, none) none) ⟨(), (), []⟩
        ⟨"John", "Doe", createDate 739403 0⟩).1 = (none, some .ErrDuplicateAppointment) :=
  (CreateAppointment_duplicate (MockHolidayService none)
    (MockAppointmentRepository (true, none) none) ⟨(), (), []⟩
    ⟨"John", "Doe", createDate 739403 0⟩ ⟨by decide, by decide⟩ rfl rfl).1

/-! ## One appointment per date string with the in-memory repository -/

/-- With the in-memory repository a call either leaves the repository as it
is, or succeeds. -/
theorem CreateAppointment_memory_cases {σ : Type} (hs : HolidayServiceInterface σ)
    (clock : Nat → Time) (s : ServiceState σ MemoryAppointmentRepository)
    (req : CreateAppointmentRequest) :
    (AppointmentService.CreateAppointment hs (memoryRepository clock) s req).2.repo = s.repo ∨
      ∃ created, (AppointmentService.CreateAppointment hs (memoryRepository clock) s req).1
        = (some created, none) := by
  unfold AppointmentService.CreateAppointment
  by_cases hn : req.FirstName = "" ∨ req.LastName = ""
  · left; simp only [if_pos hn]
  · simp only [if_neg hn]
    rcases hv : hs.ValidateDate s.holiday req.VisitDate with ⟨e, h1⟩
    cases e with
    | some err => left; rfl
    | none =>
      simp only [memoryRepository, MemoryAppointmentRepository.ExistsByDate,
        MemoryAppointmentRepository.Create]
      cases hk : s.repo.appointments req.VisitDate.String with
      | some a => left; simp
      | none => right; simp [hk]

/-- With the in-memory repository a successful call stores the appointment
it returns under the date string of the request, which was free. -/
theorem CreateAppointment_memory_success {σ : Type} (hs : HolidayServiceInterface σ)
    (clock : Nat → Time) (s : ServiceState σ MemoryAppointmentRepository)
    (req : CreateAppointmentRequest) (created : Appointment)
    (h : (AppointmentService.CreateAppointment hs (memoryRepository clock) s req).1
      = (some created, none)) :
    s.repo.appointments req.VisitDate.String = none ∧
      (AppointmentService.CreateAppointment hs (memoryRepository clock) s req).2.repo.appointments
        = mapSet s.repo.appointments req.VisitDate.String created := by
  unfold AppointmentService.CreateAppointment at h ⊢
  by_cases hn : req.FirstName = "" ∨ req.LastName = ""
  · simp [if_pos hn] at h
  · simp only [if_neg hn] at h ⊢
    rcases hv : hs.ValidateDate s.holiday req.VisitDate with ⟨e, h1⟩
    rw [hv] at h
    cases e with
    | some err => simp at h
    | none =>
      simp only [memoryRepository, MemoryAppointmentRepository.ExistsByDate,
        MemoryAppointmentRepository.Create] at h ⊢
      cases hk : s.repo.appointments req.VisitDate.String with
      | some a => simp [hk] at h
      | none =>
        simp [hk] at h
        subst h
        simp [hk]

/-- With the in-memory repository an appointment stored under a date string
stays there, unchanged, through any call. -/
theorem CreateAppointment_memory_keeps {σ : Type} (hs : HolidayServiceInterface σ)
    (clock : Nat → Time) (s : ServiceState σ MemoryAppointmentRepository)
    (req : CreateAppointmentRequest) (key : String) (a : Appointment)
    (h : s.repo.appointments key = some a) :
    (AppointmentService.CreateAppointment hs (memoryRepository clock) s
      req).2.repo.appointments key = some a := by
  rcases CreateAppointment_memory_cases hs clock s req with hsame | ⟨created, hc⟩
  · rw [hsame]; exact h
  · obtain ⟨hfree, hmap⟩ := CreateAppointment_memory_success hs clock s req created hc
    rw [hmap]
    have hne : key ≠ req.VisitDate.String := by
      intro e
      rw [e, hfree] at h
      cases h
    simp only [mapSet, if_neg hne]
    exact h

theorem createAll_memory_keeps {σ : Type} (hs : HolidayServiceInterface σ)
    (clock : Nat → Time) (reqs : List CreateAppointmentRequest)
    (s : ServiceState σ MemoryAppointmentRepository) (key : String) (a : Appointment)
    (h : s.repo.appointments key = some a) :
    (createAll hs (memoryRepository clock) s reqs).repo.appointments key = some a := by
  induction reqs generalizing s with
  | nil => exact h
  | cons req rest ih =>
    exact ih _ (CreateAppointment_memory_keeps hs clock s req key a h)

/-- C11 (as amended): with the in-memory repository, after a successful
`CreateAppointment` for a date, and after any further calls, every later call
with non-empty names whose visit date has the same YYYY-MM-DD string and
which the validator approves fails with `ErrDuplicateAppointment`; before and
after it the repository holds, under that date string, the appointment that
the first call returned, id included. -/
theorem CreateAppointment_one_per_date {σ : Type} (hs : HolidayServiceInterface σ)
    (clock : Nat → Time) (s : ServiceState σ MemoryAppointmentRepository)
    (req : CreateAppointmentRequest) (first : Appointment)
    (between : List CreateAppointmentRequest) (later : CreateAppointmentRequest)
    (hfirst : (AppointmentService.CreateAppointment hs (memoryRepository clock) s req).1
      = (some first, none))
    (hdate : later.VisitDate.String = req.VisitDate.String)
    (hnames : later.FirstName ≠ "" ∧ later.LastName ≠ "")
    (hvalid : (hs.ValidateDate
      (createAll hs (memoryRepository clock)
        (AppointmentService.CreateAppointment hs (memoryRepository clock) s req).2
        between).holiday later.VisitDate).1 = none) :
    (AppointmentService.CreateAppointment hs (memoryRepository clock)
        (createAll hs (memoryRepository clock)
          (AppointmentService.CreateAppointment hs (memoryRepository clock) s req).2 between)
        later).1 = (none, some .ErrDuplicateAppointment) ∧
      (createAll hs (memoryRepository clock)
        (AppointmentService.CreateAppointment hs (memoryRepository clock) s req).2
        between).repo.appointments req.VisitDate.String = some first ∧
      (AppointmentService.CreateAppointment hs (memoryRepository clock)
        (createAll hs (memoryRepository clock)
          (AppointmentService.CreateAppointment hs (memoryRepository clock) s req).2 between)
        later).2.repo.appointments req.VisitDate.String = some first := by
  have hstored : (AppointmentService.CreateAppointment hs (memoryRepository clock) s
      req).2.repo.appointments req.VisitDate.String = some first := by
    rw [(CreateAppointment_memory_success hs clock s req first hfirst).2]
    simp only [mapSet, if_true, eq_self_iff_true]
  have hkept := createAll_memory_keeps hs clock between _ _ first hstored
  have htaken : ((memoryRepository clock).ExistsByDate
      (createAll hs (memoryRepository clock)
        (AppointmentService.CreateAppointment hs (memoryRepository clock) s req).2
        between).repo later.VisitDate).1 = (true, none) := by
    have hex : ∀ (r : MemoryAppointmentRepository) (d : Date),
        ((memoryRepository clock).ExistsByDate r d).1
          = ((r.appointments d.String).isSome, none) := fun _ _ => rfl
    rw [hex, hdate, hkept]
    rfl
  refine ⟨?_, hkept, CreateAppointment_memory_keeps hs clock _ later _ first hkept⟩
  rw [CreateAppointment_of_taken hs (memoryRepository clock) _ later hnames hvalid htaken]

/-- Witness of C11 (as amended): John Doe books 2025-06-02, someone books
2025-06-03, then Jane Smith asks for 2025-06-02 at 10:00 UTC. -/
theorem CreateAppointment_one_per_date_witness :
    (AppointmentService.CreateAppointment (MockHolidayService none) (memoryRepository fixedClock)
        (createAll (MockHolidayService none) (memoryRepository fixedClock)
          (AppointmentService.CreateAppointment (MockHolidayService none)
            (memoryRepository fixedClock) ⟨(), NewMemoryAppointmentRepository, []⟩
            ⟨"John", "Doe", createDate 739403 0⟩).2
          [⟨"Ann", "Lee", createDate 739404 0⟩])
        ⟨"Jane", "Smith", createDate 739403 36000000000000⟩).1
      = (none, some .ErrDuplicateAppointment) :=
  (CreateAppointment_one_per_date (MockHolidayService none) fixedClock
    ⟨(), NewMemoryAppointmentRepository, []⟩ ⟨"John", "Doe", createDate 739403 0⟩
    { ID := 1, FirstName := "John", LastName := "Doe", VisitDate := createDate 739403 0,
      CreatedAt := (createDate 739403 0).Time, UpdatedAt := (createDate 739403 0).Time,
      DeletedAt := none }
    [⟨"Ann", "Lee", createDate 739404 0⟩] ⟨"Jane", "Smith", createDate 739403 36000000000000⟩
    (by decide) (by decide) ⟨by decide, by decide⟩ rfl).1

/-- C11 as stated fails: after John Doe has booked 2025-06-02, a later
request for the same date string with an empty first name fails with
`ErrInvalidInput`, not with `ErrDuplicateAppointment`. -/
theorem CreateAppointment_later_empty_name :
    (AppointmentService.CreateAppointment (MockHolidayService none) (memoryRepository fixedClock)
        ⟨(), NewMemoryAppointmentRepository, []⟩ ⟨"John", "Doe", createDate 739403 0⟩).1.2
        = none ∧
      (createDate 739403 0).String = "2025-06-02" ∧
      (AppointmentService.CreateAppointment (MockHolidayService none) (memoryRepository fixedClock)
        (AppointmentService.CreateAppointment (MockHolidayService none)
          (memoryRepository fixedClock) ⟨(), NewMemoryAppointmentRepository, []⟩
          ⟨"John", "Doe", createDate 739403 0⟩).2
        ⟨"", "Smith", createDate 739403 0⟩).1 = (none, some .ErrInvalidInput) := by
  decide

/-! ## What the cache holds -/

/-- The cache after `IsPublicHoliday`: as before, or, after a miss and a
successful fetch, with the fetched dates added as `true` under the year. -/
theorem IsPublicHoliday_cache_cases (remote : Remote) (w : World) (date : Date) :
    (IsPublicHoliday remote w date).2.cache = w.cache ∨
      ∃ holidays, w.cache.lookup date.Time.Year date.String = none ∧
        (GetPublicHolidays remote w date.Time.Year "GB").1 = .ok holidays ∧
        (IsPublicHoliday remote w date).2.cache =
          mapSet w.cache date.Time.Year (fun s =>
            if s ∈ holidays.map (fun h => h.Date) then some true
            else match w.cache date.Time.Year with
              | none => none
              | some m => m s) := by
  rw [IsPublicHoliday_eq]
  cases hl : w.cache.lookup date.Time.Year date.String with
  | some b => left; rfl
  | none =>
    simp only
    cases hg : (GetPublicHolidays remote w date.Time.Year "GB").1 with
    | error e => left; exact (fetchAndPopulate_error remote w _ _ e hg).2
    | ok hs => right; exact ⟨hs, trivial, rfl, (fetchAndPopulate_ok remote w _ _ hs hg).2⟩

/-- The state after `ValidateDate`: as before, or the one that
`IsPublicHoliday` leaves. -/
theorem ValidateDate_world (remote : Remote) (clock : Time) (w : World) (visitDate : Date) :
    (ValidateDate remote clock w visitDate).2 = w ∨
      (ValidateDate remote clock w visitDate).2 = (IsPublicHoliday remote w visitDate).2 := by
  unfold ValidateDate
  simp only
  split
  · left; rfl
  · split
    · left; rfl
    · right
      rcases IsPublicHoliday remote w visitDate with ⟨⟨b, e⟩, w1⟩
      cases e with
      | some err => rfl
      | none => cases b <;> rfl

/-- The result of a call that the cache answers. -/
theorem IsPublicHoliday_of_lookup (remote : Remote) (w : World) (date : Date) (b : Bool)
    (h : w.cache.lookup date.Time.Year date.String = some b) :
    IsPublicHoliday remote w date = ((b, none), w) := by
  rw [IsPublicHoliday_eq, h]

/-- The result of a call that the cache does not answer and whose fetch
succeeds. -/
theorem IsPublicHoliday_of_fetch (remote : Remote) (w : World) (date : Date)
    (holidays : List Holiday)
    (hmiss : w.cache.lookup date.Time.Year date.String = none)
    (hfetch : (GetPublicHolidays remote w date.Time.Year "GB").1 = .ok holidays) :
    (IsPublicHoliday remote w date).1
        = (decide (date.String ∈ holidays.map (fun h => h.Date)), none) ∧
      (IsPublicHoliday remote w date).2.cache.lookup date.Time.Year date.String
        = (if date.String ∈ holidays.map (fun h => h.Date) then some true else none) := by
  have h1 : IsPublicHoliday remote w date
      = fetchAndPopulate remote w date.Time.Year date.String := by
    rw [IsPublicHoliday_eq, hmiss]
  obtain ⟨hr, hc⟩ := fetchAndPopulate_ok remote w _ date.String holidays hfetch
  rw [h1]
  refine ⟨hr, ?_⟩
  rw [hc]
  simp only [Cache.lookup, mapSet, if_true, eq_self_iff_true]
  by_cases hin : date.String ∈ holidays.map (fun h => h.Date)
  · rw [if_pos hin, if_pos hin]
  · rw [if_neg hin, if_neg hin]
    simp only [Cache.lookup] at hmiss
    cases hold : w.cache date.Time.Year with
    | none => rfl
    | some m => rw [hold] at hmiss; exact hmiss

theorem storesTrueOnly_IsPublicHoliday (remote : Remote) (w : World) (date : Date)
    (h : w.cache.storesTrueOnly) : (IsPublicHoliday remote w date).2.cache.storesTrueOnly := by
  rcases IsPublicHoliday_cache_cases remote w date with hsame | ⟨hs, _, _, hc⟩
  · rw [hsame]; exact h
  · rw [hc]
    intro year yc ds b hy hd
    by_cases hyear : year = date.Time.Year
    · simp only [mapSet, if_pos hyear, Option.some.injEq] at hy
      subst hy
      simp only at hd
      by_cases hin : ds ∈ hs.map (fun h => h.Date)
      · rw [if_pos hin] at hd
        simp only [Option.some.injEq] at hd
        exact hd.symm
      · rw [if_neg hin] at hd
        cases hold : w.cache date.Time.Year with
        | none => rw [hold] at hd; cases hd
        | some m =>
          rw [hold] at hd
          exact h _ m ds b hold hd
    · simp only [mapSet, if_neg hyear] at hy
      exact h year yc ds b hy hd

theorem storesTrueOnly_applyOp (remote : Remote) (w : World) (op : Op)
    (h : w.cache.storesTrueOnly) : (applyOp remote w op).cache.storesTrueOnly := by
  cases op with
  | IsPublicHoliday date => exact storesTrueOnly_IsPublicHoliday remote w date h
  | ValidateDate clock date =>
    rcases ValidateDate_world remote clock w date with hw | hw
    · simp only [applyOp, hw]; exact h
    · simp only [applyOp, hw]; exact storesTrueOnly_IsPublicHoliday remote w date h

theorem storesTrueOnly_runOps (remote : Remote) (ops : List Op) (w : World)
    (h : w.cache.storesTrueOnly) : (runOps remote w ops).cache.storesTrueOnly := by
  induction ops generalizing w with
  | nil => exact h
  | cons op rest ih => exact ih _ (storesTrueOnly_applyOp remote w op h)

theorem storesTrueOnly_init : World.init.cache.storesTrueOnly := by
  intro year yc ds b hy
  cases hy

/-- C17: on a call that reaches the remote source and whose fetch
succeeds, the error is nil, the returned boolean is true exactly when the
date's YYYY-MM-DD string is the `Date` of some fetched holiday, and it is the
value found for the date in the year's map of the cache after the call (a
missing key reads as `false`). -/
theorem IsPublicHoliday_fetch_answer (remote : Remote) (w : World) (date : Date)
    (holidays : List Holiday)
    (hmiss : w.cache.lookup date.Time.Year date.String = none)
    (hfetch : (GetPublicHolidays remote w date.Time.Year "GB").1 = .ok holidays) :
    (IsPublicHoliday remote w date).1.2 = none ∧
      ((IsPublicHoliday remote w date).1.1 = true ↔
        ∃ h ∈ holidays, h.Date = date.String) ∧
      (IsPublicHoliday remote w date).1.1 =
        ((IsPublicHoliday remote w date).2.cache.lookup date.Time.Year date.String).getD
          false := by
  obtain ⟨hr, hc⟩ := IsPublicHoliday_of_fetch remote w date holidays hmiss hfetch
  rw [hr, hc]
  refine ⟨rfl, ?_, ?_⟩
  · simp only [decide_eq_true_eq, List.mem_map]
  · by_cases hin : date.String ∈ holidays.map (fun h => h.Date)
    · rw [if_pos hin]; simp only [Option.getD_some, decide_eq_true_eq]; exact hin
    · rw [if_neg hin]; simp only [Option.getD_none, decide_eq_false_iff_not]; exact hin

/-- Witness of C17: from the empty cache, the call for 2025-12-25 fetches a
list that holds Christmas Day and answers true. -/
theorem IsPublicHoliday_fetch_answer_witness :
    (IsPublicHoliday (remoteAlways [holidayOn "2025-12-25" "Christmas Day"]) World.init
        (createDate 739609 0)).1.1 = true ↔
      ∃ h ∈ [holidayOn "2025-12-25" "Christmas Day"], h.Date = (createDate 739609 0).String :=
  (IsPublicHoliday_fetch_answer (remoteAlways [holidayOn "2025-12-25" "Christmas Day"])
    World.init (createDate 739609 0) [holidayOn "2025-12-25" "Christmas Day"] rfl rfl).2.1

/-- C18: from the empty cache, after any sequence of `IsPublicHoliday` and
`ValidateDate` calls, every entry stored in the cache maps its date to
`true`; a call that the cache answers returns `(true, nil)` and changes
nothing; and a call that returns `(false, nil)` is one that the cache did not
answer and that made a successful fetch itself. -/
theorem cache_entries_true (remote : Remote) (ops : List Op) :
    (runOps remote World.init ops).cache.storesTrueOnly ∧
      (∀ (date : Date) (b : Bool),
        (runOps remote World.init ops).cache.lookup date.Time.Year date.String = some b →
        IsPublicHoliday remote (runOps remote World.init ops) date
          = ((true, none), runOps remote World.init ops)) ∧
      (∀ date : Date,
        (IsPublicHoliday remote (runOps remote World.init ops) date).1 = (false, none) →
        ∃ holidays,
          (runOps remote World.init ops).cache.lookup date.Time.Year date.String = none ∧
          (GetPublicHolidays remote (runOps remote World.init ops) date.Time.Year "GB").1
            = .ok holidays ∧
          (IsPublicHoliday remote (runOps remote World.init ops) date).2.requests
            = (runOps remote World.init ops).requests ++ [(date.Time.Year, "GB")]) := by
  have hinv := storesTrueOnly_runOps remote ops World.init storesTrueOnly_init
  have hhit : ∀ (date : Date) (b : Bool),
      (runOps remote World.init ops).cache.lookup date.Time.Year date.String = some b →
      b = true := by
    intro date b hl
    simp only [Cache.lookup] at hl
    cases hy : (runOps remote World.init ops).cache date.Time.Year with
    | none => rw [hy] at hl; cases hl
    | some yc => rw [hy] at hl; exact hinv _ yc _ b hy hl
  refine ⟨hinv, ?_, ?_⟩
  · intro date b hl
    have hb := hhit date b hl
    subst hb
    exact IsPublicHoliday_of_lookup remote _ date true hl
  · intro date hres
    cases hl : (runOps remote World.init ops).cache.lookup date.Time.Year date.String with
    | some b =>
      have hb := hhit date b hl
      subst hb
      rw [IsPublicHoliday_of_lookup remote _ date true hl] at hres
      cases hres
    | none =>
      cases hg : (GetPublicHolidays remote (runOps remote World.init ops)
          date.Time.Year "GB").1 with
      | error e =>
        have h1 : IsPublicHoliday remote (runOps remote World.init ops) date
            = fetchAndPopulate remote (runOps remote World.init ops) date.Time.Year
                date.String := by
          rw [IsPublicHoliday_eq, hl]
        rw [h1, (fetchAndPopulate_error remote _ _ date.String e hg).1] at hres
        cases hres
      | ok hs =>
        exact ⟨hs, rfl, rfl, IsPublicHoliday_miss_requests remote _ date hl⟩

/-- Witness of C18: after a holiday check and a validation of 2025-12-25
against a remote source that lists Christmas Day, the call for 2025-12-25 is
answered `(true, nil)` by the cache. -/
theorem cache_entries_true_witness :
    (IsPublicHoliday (remoteAlways [holidayOn "2025-12-25" "Christmas Day"])
        (runOps (remoteAlways [holidayOn "2025-12-25" "Christmas Day"]) World.init
          [.IsPublicHoliday (createDate 739609 0),
            .ValidateDate (createDate 739585 0).Time (createDate 739609 0)])
        (createDate 739609 0)).1 = (true, none) :=
  congrArg Prod.fst
    ((cache_entries_true (remoteAlways [holidayOn "2025-12-25" "Christmas Day"])
      [.IsPublicHoliday (createDate 739609 0),
        .ValidateDate (createDate 739585 0).Time (createDate 739609 0)]).2.1
      (createDate 739609 0) true (by decide))

/-! ## The cached check against the uncached one -/

/-- With a fixed remote source the outcome of a fetch does not depend on
the state it is made in. -/
theorem GetPublicHolidays_fixed (remote : Remote) (hfixed : remote.fixed) (w w2 : World)
    (year : Int) (cc : String) :
    (GetPublicHolidays remote w year cc).1 = (GetPublicHolidays remote w2 year cc).1 := by
  unfold GetPublicHolidays
  rw [hfixed w.requests.length w2.requests.length year cc]
  cases remote w2.requests.length year cc with
  | requestFailed c => rfl
  | transportFailed c => rfl
  | response st body =>
    by_cases hst : st = 200
    · cases body <;> simp [hst]
    · simp [hst]

theorem any_Date_eq (holidays : List Holiday) (dateStr : String) :
    holidays.any (fun holiday => holiday.Date == dateStr)
      = decide (dateStr ∈ holidays.map (fun h => h.Date)) := by
  induction holidays with
  | nil => simp
  | cons h rest ih =>
    rw [List.any_cons, ih]
    by_cases hh : h.Date = dateStr
    · simp [hh]
    · have hh2 : ¬ dateStr = h.Date := fun e => hh e.symm
      simp [hh, hh2]

/-- The result of the uncached `HolidayClient.IsPublicHoliday`. -/
theorem HolidayClient_IsPublicHoliday_result (remote : Remote) (w : World) (date : Time)
    (cc : String) :
    (HolidayClient.IsPublicHoliday remote w date cc).1 =
      match (GetPublicHolidays remote w date.Year cc).1 with
      | .error err => (false, some err)
      | .ok holidays =>
        (decide (formatDateLayout date ∈ holidays.map (fun h => h.Date)), none) := by
  simp only [HolidayClient.IsPublicHoliday]
  rcases GetPublicHolidays remote w date.Year cc with ⟨r, w1⟩
  cases r with
  | error e => rfl
  | ok hs => simp only [any_Date_eq]

theorem fromRemote_IsPublicHoliday (remote : Remote) (hfixed : remote.fixed) (w : World)
    (date : Date) (h : w.cache.fromRemote remote) :
    (IsPublicHoliday remote w date).2.cache.fromRemote remote := by
  rcases IsPublicHoliday_cache_cases remote w date with hsame | ⟨hs, _, hg, hc⟩
  · rw [hsame]; exact h
  · rw [hc]
    intro year yc ds b hy hd
    by_cases hyear : year = date.Time.Year
    · simp only [mapSet, if_pos hyear, Option.some.injEq] at hy
      subst hy
      simp only at hd
      by_cases hin : ds ∈ hs.map (fun h => h.Date)
      · rw [if_pos hin] at hd
        simp only [Option.some.injEq] at hd
        refine ⟨hd.symm, hs, ?_, hin⟩
        rw [hyear, GetPublicHolidays_fixed remote hfixed World.init w]
        exact hg
      · rw [if_neg hin] at hd
        cases hold : w.cache date.Time.Year with
        | none => rw [hold] at hd; cases hd
        | some m =>
          rw [hold] at hd
          rw [hyear]
          exact h _ m ds b hold hd
    · simp only [mapSet, if_neg hyear] at hy
      exact h year yc ds b hy hd

theorem fromRemote_runOps (remote : Remote) (hfixed : remote.fixed) (ops : List Op)
    (w : World) (h : w.cache.fromRemote remote) :
    (runOps remote w ops).cache.fromRemote remote := by
  induction ops generalizing w with
  | nil => exact h
  | cons op rest ih =>
    apply ih
    cases op with
    | IsPublicHoliday date => exact fromRemote_IsPublicHoliday remote hfixed w date h
    | ValidateDate clock date =>
      rcases ValidateDate_world remote clock w date with hw | hw
      · simp only [applyOp, hw]; exact h
      · simp only [applyOp, hw]; exact fromRemote_IsPublicHoliday remote hfixed w date h

/-- C19: when the remote source is a fixed function of (year, country
code), in every state reached from the empty cache by calls of the holiday
service and for every date, the cached `HolidayService.IsPublicHoliday`
returns the same (bool, error) as the uncached
`HolidayClient.IsPublicHoliday` for "GB". -/
theorem cached_agrees_with_uncached (remote : Remote) (hfixed : remote.fixed)
    (ops : List Op) (date : Date) :
    (IsPublicHoliday remote (runOps remote World.init ops) date).1
      = (HolidayClient.IsPublicHoliday remote (runOps remote World.init ops) date.Time
          "GB").1 := by
  have hinv : (runOps remote World.init ops).cache.fromRemote remote := by
    apply fromRemote_runOps remote hfixed ops
    intro year yc ds b hy
    cases hy
  rw [HolidayClient_IsPublicHoliday_result]
  cases hl : (runOps remote World.init ops).cache.lookup date.Time.Year date.String with
  | some b =>
    rw [IsPublicHoliday_of_lookup remote _ date b hl]
    simp only [Cache.lookup] at hl
    cases hy : (runOps remote World.init ops).cache date.Time.Year with
    | none => rw [hy] at hl; cases hl
    | some yc =>
      rw [hy] at hl
      obtain ⟨hb, hs, hg, hin⟩ := hinv _ yc _ b hy hl
      rw [GetPublicHolidays_fixed remote hfixed World.init (runOps remote World.init ops)] at hg
      have hin2 : formatDateLayout date.Time ∈ hs.map (fun h => h.Date) := hin
      rw [hg, hb]
      simp only
      rw [decide_eq_true hin2]
  | none =>
    have h1 : IsPublicHoliday remote (runOps remote World.init ops) date
        = fetchAndPopulate remote (runOps remote World.init ops) date.Time.Year
            date.String := by
      rw [IsPublicHoliday_eq, hl]
    rw [h1]
    cases hg : (GetPublicHolidays remote (runOps remote World.init ops)
        date.Time.Year "GB").1 with
    | error e => exact (fetchAndPopulate_error remote _ _ date.String e hg).1
    | ok hs => exact (fetchAndPopulate_ok remote _ _ date.String hs hg).1

/-- Witness of C19: a remote source that always lists Christmas Day; after
one cached check of 2025-12-25, the cached and the uncached check of
2025-12-25 both answer `(true, nil)`. -/
theorem cached_agrees_with_uncached_witness :
    (remoteAlways [holidayOn "2025-12-25" "Christmas Day"]).fixed ∧
      (IsPublicHoliday (remoteAlways [holidayOn "2025-12-25" "Christmas Day"])
        (runOps (remoteAlways [holidayOn "2025-12-25" "Christmas Day"]) World.init
          [.IsPublicHoliday (createDate 739609 0)]) (createDate 739609 0)).1
      = (HolidayClient.IsPublicHoliday (remoteAlways [holidayOn "2025-12-25" "Christmas Day"])
        (runOps (remoteAlways [holidayOn "2025-12-25" "Christmas Day"]) World.init
          [.IsPublicHoliday (createDate 739609 0)]) (createDate 739609 0).Time "GB").1 :=
  ⟨fun _ _ _ _ => rfl,
    cached_agrees_with_uncached (remoteAlways [holidayOn "2025-12-25" "Christmas Day"])
      (fun _ _ _ _ => rfl) [.IsPublicHoliday (createDate 739609 0)] (createDate 739609 0)⟩

/-! ## The cache mutex -/

/-- The stores of the population loop send no request. -/
theorem filterMap_request_writes (holidays : List Holiday) (h : Holds) :
    (holidays.map (fun _ => (Step.writeCache, h))).filterMap (fun e => e.1.request) = [] := by
  induction holidays with
  | nil => rfl
  | cons a rest ih =>
    rw [List.map_cons, List.filterMap_cons]
    exact ih

/-- The part after a cache miss, started with the read lock held: it
returns, computes what `fetchAndPopulate` computes, gives every lock back,
and its steps are fixed by the outcome of the fetch. -/
theorem fetchAndPopulateLocked_spec (remote : Remote) (w : World) (year : Int)
    (ds : String) :
    fetchAndPopulateLocked remote w year ds ⟨1, false⟩
        [(.RLock, ⟨1, false⟩), (.readCache, ⟨1, false⟩)] =
      match (GetPublicHolidays remote w year "GB").1 with
      | .error _ =>
        some (fetchAndPopulate remote w year ds, Holds.free,
          [(.RLock, ⟨1, false⟩), (.readCache, ⟨1, false⟩), (.RUnlock, Holds.free),
            (.fetch year "GB" false, Holds.free)])
      | .ok holidays =>
        some (fetchAndPopulate remote w year ds, Holds.free,
          (.RLock, ⟨1, false⟩) :: (.readCache, ⟨1, false⟩) :: (.RUnlock, Holds.free) ::
            (.fetch year "GB" true, Holds.free) :: (.Lock, ⟨0, true⟩) ::
            (.readCache, ⟨0, true⟩) ::
            ((match w.cache year with
              | none => [(Step.writeCache, (⟨0, true⟩ : Holds))]
              | some _ => []) ++
              holidays.map (fun _ => (Step.writeCache, (⟨0, true⟩ : Holds))) ++
              [(.Unlock, Holds.free)])) := by
  have hc := GetPublicHolidays_cache remote w year "GB"
  unfold fetchAndPopulateLocked fetchAndPopulate
  rcases hg : GetPublicHolidays remote w year "GB" with ⟨r, w1⟩
  rw [hg] at hc
  simp only at hc
  cases r with
  | error e => rfl
  | ok hs =>
    simp only [Holds.RUnlock, Holds.Lock, Holds.Unlock, Holds.free, hc]
    simp

/-- C16: a call of `IsPublicHoliday` that starts with nothing held of the
cache mutex returns with nothing held, never waits for itself and never gives
back a lock it does not hold, and computes what `IsPublicHoliday` computes.
Its requests to the remote source are exactly its `fetch` steps; during a
`fetch` step the call holds neither the read lock nor the write lock (the
read lock has been given back on the path to it); a `Lock` step comes only
after a `fetch` step that returned without error; the cache is stored into
only under the write lock and looked up only under a lock; and a call
without a `Lock` step leaves the cache as it was. -/
theorem IsPublicHoliday_no_lock_across_fetch (remote : Remote) (w : World) (date : Date) :
    ∃ steps : List (Step × Holds),
      IsPublicHolidayLocked remote w date
        = some (IsPublicHoliday remote w date, Holds.free, steps) ∧
      (IsPublicHoliday remote w date).2.requests
        = w.requests ++ steps.filterMap (fun e => e.1.request) ∧
      (∀ year cc ok held, (Step.fetch year cc ok, held) ∈ steps →
        held = Holds.free ∧ year = date.Time.Year ∧ cc = "GB" ∧
          (ok = true ↔ ∃ hs, (GetPublicHolidays remote w date.Time.Year "GB").1 = .ok hs)) ∧
      (∀ i held, steps.get? i = some (Step.Lock, held) →
        ∃ j, j < i ∧
          steps.get? j = some (Step.fetch date.Time.Year "GB" true, Holds.free)) ∧
      (∀ held, (Step.writeCache, held) ∈ steps → held.writeLock = true) ∧
      (∀ held, (Step.readCache, held) ∈ steps →
        0 < held.readLocks ∨ held.writeLock = true) ∧
      ((∀ held, (Step.Lock, held) ∉ steps) →
        (IsPublicHoliday remote w date).2.cache = w.cache) := by
  cases hl : w.cache.lookup date.Time.Year date.String with
  | some b =>
    refine ⟨[(.RLock, ⟨1, false⟩), (.readCache, ⟨1, false⟩), (.RUnlock, Holds.free)],
      ?_, ?_, ?_, ?_, ?_, ?_, ?_⟩
    · rw [IsPublicHoliday_of_lookup remote w date b hl]
      simp only [Cache.lookup] at hl
      simp only [IsPublicHolidayLocked]
      cases hy : w.cache date.Time.Year with
      | none => rw [hy] at hl; cases hl
      | some yc =>
        rw [hy] at hl
        simp only at hl
        simp only [hl]
        rfl
    · rw [IsPublicHoliday_of_lookup remote w date b hl]
      simp [Step.request]
    · intro year cc ok held hmem
      simp at hmem
    · intro i held hget
      match i, hget with
      | 0, hget => simp at hget
      | 1, hget => simp at hget
      | 2, hget => simp at hget
      | n + 3, hget => simp at hget
    · intro held hmem
      simp at hmem
    · intro held hmem
      simp at hmem
      left; rw [hmem]; decide
    · intro _
      rw [IsPublicHoliday_of_lookup remote w date b hl]
  | none =>
    have h1 : IsPublicHoliday remote w date
        = fetchAndPopulate remote w date.Time.Year date.String := by
      rw [IsPublicHoliday_eq, hl]
    have h2 : IsPublicHolidayLocked remote w date
        = fetchAndPopulateLocked remote w date.Time.Year date.String ⟨1, false⟩
            [(.RLock, ⟨1, false⟩), (.readCache, ⟨1, false⟩)] := by
      simp only [Cache.lookup] at hl
      simp only [IsPublicHolidayLocked]
      cases hy : w.cache date.Time.Year with
      | none => rfl
      | some yc =>
        rw [hy] at hl
        simp only at hl
        simp only [hl]
        rfl
    have hreq := fetchAndPopulate_requests remote w date.Time.Year date.String
    have hspec := fetchAndPopulateLocked_spec remote w date.Time.Year date.String
    rw [h1, h2, hspec]
    cases hg : (GetPublicHolidays remote w date.Time.Year "GB").1 with
    | error e =>
      refine ⟨_, rfl, ?_, ?_, ?_, ?_, ?_, ?_⟩
      · rw [hreq]; simp [Step.request]
      · intro year cc ok held hmem
        simp at hmem
        obtain ⟨⟨hy, hc, hok⟩, hh⟩ := hmem
        refine ⟨hh, hy, hc, ?_⟩
        rw [hok]
        simp
      · intro i held hget
        match i, hget with
        | 0, hget => simp at hget
        | 1, hget => simp at hget
        | 2, hget => simp at hget
        | 3, hget => simp at hget
        | n + 4, hget => simp at hget
      · intro held hmem
        simp at hmem
      · intro held hmem
        simp at hmem
        left; rw [hmem]; decide
      · intro _
        exact (fetchAndPopulate_error remote w _ _ e hg).2
    | ok hs =>
      refine ⟨_, rfl, ?_, ?_, ?_, ?_, ?_, ?_⟩
      · rw [hreq]
        simp only [List.filterMap_cons, Step.request, List.filterMap_append,
          filterMap_request_writes]
        cases w.cache date.Time.Year <;> simp [Step.request]
      · intro year cc ok held hmem
        simp at hmem
        rcases hmem with ⟨⟨hy, hc, hok⟩, hh⟩ | hmem
        · refine ⟨hh, hy, hc, ?_⟩
          rw [hok]
          simp
        · exfalso
          cases hcy : w.cache date.Time.Year with
          | none => rw [hcy] at hmem; simp at hmem
          | some m => rw [hcy] at hmem; simp at hmem
      · intro i held hget
        match i, hget with
        | 0, hget => simp at hget
        | 1, hget => simp at hget
        | 2, hget => simp at hget
        | 3, hget => simp at hget
        | n + 4, _ => exact ⟨3, by omega, rfl⟩
      · intro held hmem
        simp only [List.mem_cons, List.mem_append, List.mem_map, Prod.mk.injEq,
          List.mem_singleton, List.not_mem_nil] at hmem
        rcases hmem with ⟨h, _⟩ | ⟨h, _⟩ | ⟨h, _⟩ | ⟨h, _⟩ | ⟨h, _⟩ | ⟨h, _⟩ |
          (hm | ⟨_, _, _, hh⟩) | ⟨h, _⟩ | hf
        any_goals cases h
        · cases hcy : w.cache date.Time.Year with
          | none =>
            rw [hcy] at hm
            simp only [List.mem_singleton, Prod.mk.injEq, true_and] at hm
            rw [hm]
          | some m =>
            rw [hcy] at hm
            simp only [List.not_mem_nil] at hm
        · rw [← hh]
        · exact hf.elim
      · intro held hmem
        simp at hmem
        rcases hmem with hmem | hmem | hmem
        · left; rw [hmem]; decide
        · right; rw [hmem]
        · exfalso
          cases hcy : w.cache date.Time.Year with
          | none => rw [hcy] at hmem; simp at hmem
          | some m => rw [hcy] at hmem; simp at hmem
      · intro hno
        exact absurd (by simp) (hno ⟨0, true⟩)

/-- Witness of C16: from the empty cache, the call for 2025-12-25 with a
remote source that lists Christmas Day takes seven steps and fetches with
nothing held. -/
theorem IsPublicHoliday_no_lock_across_fetch_witness :
    ∃ steps : List (Step × Holds),
      IsPublicHolidayLocked (remoteAlways [holidayOn "2025-12-25" "Christmas Day"])
          World.init (createDate 739609 0)
        = some (IsPublicHoliday (remoteAlways [holidayOn "2025-12-25" "Christmas Day"])
            World.init (createDate 739609 0), Holds.free, steps) ∧
      ∀ year cc ok held, (Step.fetch year cc ok, held) ∈ steps → held = Holds.free :=
  let ⟨steps, h1, _, h3, _⟩ := IsPublicHoliday_no_lock_across_fetch
    (remoteAlways [holidayOn "2025-12-25" "Christmas Day"]) World.init (createDate 739609 0)
  ⟨steps, h1, fun year cc ok held hm => (h3 year cc ok held hm).1⟩

/-! ## The JSON form of `Date` -/

set_option maxHeartbeats 4000000 in
/-- Within a cycle of 400 years that starts on a first of March: the year
of the cycle that `civil` computes for a day of the cycle, the place of the
day in that year, and the years whose last day is a 29th of February. -/
theorem civil_doy_bounds (doe yoe : Int) (h0 : 0 ≤ doe) (h1 : doe < 146097)
    (hy : yoe = (doe - doe / 1460 + doe / 36524 - doe / 146096) / 365) :
    0 ≤ yoe ∧ yoe ≤ 399 ∧
    0 ≤ doe - (365 * yoe + yoe / 4 - yoe / 100) ∧
    doe - (365 * yoe + yoe / 4 - yoe / 100) ≤ 365 ∧
    (doe - (365 * yoe + yoe / 4 - yoe / 100) = 365 →
      (yoe + 1) % 4 = 0 ∧ ((yoe + 1) % 100 ≠ 0 ∨ (yoe + 1) % 400 = 0)) := by
  have hb0 : 0 ≤ yoe := by omega
  have hb1 : yoe ≤ 399 := by omega
  interval_cases yoe <;> omega

/-- The month and the day that `civil` computes exist, and `daysFromCivil`
leads back to the day number. -/
theorem civil_spec (n : Int) :
    1 ≤ (Time.civil n).2.1 ∧ (Time.civil n).2.1 ≤ 12 ∧
      1 ≤ (Time.civil n).2.2 ∧
      (Time.civil n).2.2 ≤ daysIn (Time.civil n).2.1 (Time.civil n).1 ∧
      daysFromCivil (Time.civil n).1 (Time.civil n).2.1 (Time.civil n).2.2 = n := by
  obtain ⟨era, hera⟩ : ∃ era, era = (n + 306) / 146097 := ⟨_, rfl⟩
  obtain ⟨doe, hdoe⟩ : ∃ doe, doe = n + 306 - era * 146097 := ⟨_, rfl⟩
  obtain ⟨yoe, hyoe⟩ : ∃ yoe, yoe = (doe - doe / 1460 + doe / 36524 - doe / 146096) / 365 :=
    ⟨_, rfl⟩
  obtain ⟨doy, hdoy⟩ : ∃ doy, doy = doe - (365 * yoe + yoe / 4 - yoe / 100) := ⟨_, rfl⟩
  obtain ⟨mp, hmp⟩ : ∃ mp, mp = (5 * doy + 2) / 153 := ⟨_, rfl⟩
  have h0 : 0 ≤ doe := by omega
  have h1 : doe < 146097 := by omega
  obtain ⟨hy0, hy1, hd0, hd1, hleap⟩ := civil_doy_bounds doe yoe h0 h1 hyoe
  rw [← hdoy] at hd0 hd1 hleap
  have hm0 : 0 ≤ mp := by omega
  have hm1 : mp ≤ 11 := by omega
  have hc : Time.civil n =
      (yoe + era * 400 + (if (if mp < 10 then mp + 3 else mp - 9) ≤ 2 then 1 else 0),
        (if mp < 10 then mp + 3 else mp - 9), doy - (153 * mp + 2) / 5 + 1) := by
    simp only [Time.civil, ← hera, ← hdoe, ← hyoe, ← hdoy, ← hmp]
  rw [hc]
  clear hc hyoe hera h0 h1
  simp only [daysIn, isLeap, daysFromCivil]
  interval_cases mp <;> simp <;> omega


theorem digitChar_isDigit (n : Nat) : (digitChar n).isDigit = true := by
  unfold digitChar
  have h : n % 10 < 10 := Nat.mod_lt _ (by decide)
  generalize n % 10 = k at h
  interval_cases k <;> rfl

theorem digitValue_digitChar (n : Nat) : digitValue (digitChar n) = ((n % 10 : Nat) : Int) := by
  unfold digitChar
  have h : n % 10 < 10 := Nat.mod_lt _ (by decide)
  generalize n % 10 = k at h
  interval_cases k <;> rfl

theorem digitChar_ne_quote (n : Nat) : (digitChar n == '"') = false := by
  unfold digitChar
  have h : n % 10 < 10 := Nat.mod_lt _ (by decide)
  generalize n % 10 = k at h
  interval_cases k <;> rfl

theorem padDigits_of_lt (fuel width n : Nat) (h : n < 10 ^ width) :
    padDigits fuel width n = lastDigits width n := by
  cases fuel with
  | zero => rfl
  | succ f => simp only [padDigits, if_pos h]

theorem appendInt_four (x : Int) (h0 : 0 ≤ x) (h1 : x ≤ 9999) :
    appendInt x 4 = [digitChar (x.natAbs / 10 / 10 / 10), digitChar (x.natAbs / 10 / 10),
      digitChar (x.natAbs / 10), digitChar x.natAbs] := by
  have hlt : x.natAbs < 10 ^ 4 := by omega
  have hneg : ¬ x < 0 := by omega
  simp only [appendInt, if_neg hneg, padDigits_of_lt _ _ _ hlt, lastDigits, List.nil_append,
    List.cons_append]

theorem appendInt_two (x : Int) (h0 : 0 ≤ x) (h1 : x ≤ 99) :
    appendInt x 2 = [digitChar (x.natAbs / 10), digitChar x.natAbs] := by
  have hlt : x.natAbs < 10 ^ 2 := by omega
  have hneg : ¬ x < 0 := by omega
  simp only [appendInt, if_neg hneg, padDigits_of_lt _ _ _ hlt, lastDigits, List.nil_append,
    List.cons_append]

theorem daysIn_le (month year : Int) : daysIn month year ≤ 31 := by
  unfold daysIn
  split
  · split <;> omega
  · split <;> omega

/-- The text of a date with a year of four digits. -/
theorem formatDateLayout_data (t : Time) (hy0 : 0 ≤ t.Year) (hy1 : t.Year ≤ 9999) :
    formatDateLayout t = String.mk
      [digitChar (t.Year.natAbs / 10 / 10 / 10), digitChar (t.Year.natAbs / 10 / 10),
        digitChar (t.Year.natAbs / 10), digitChar t.Year.natAbs, '-',
        digitChar (t.Month.natAbs / 10), digitChar t.Month.natAbs, '-',
        digitChar (t.Day.natAbs / 10), digitChar t.Day.natAbs] := by
  obtain ⟨hm0, hm1, hd0, hd1, _⟩ := civil_spec t.localDay
  have hdl := daysIn_le (Time.civil t.localDay).2.1 (Time.civil t.localDay).1
  have hM0 : 0 ≤ t.Month := by unfold Time.Month; omega
  have hM1 : t.Month ≤ 99 := by unfold Time.Month; omega
  have hD0 : 0 ≤ t.Day := by unfold Time.Day; omega
  have hD1 : t.Day ≤ 99 := by unfold Time.Day; omega
  simp only [formatDateLayout, appendInt_four _ hy0 hy1, appendInt_two _ hM0 hM1,
    appendInt_two _ hD0 hD1, List.cons_append, List.nil_append]

/-- Parsing the text of a date with a year of four digits gives midnight
UTC of that date. -/
theorem parse_formatDateLayout (t : Time) (hy0 : 0 ≤ t.Year) (hy1 : t.Year ≤ 9999) :
    parseDateLayout (formatDateLayout t) = .ok { ns := t.localDay * dayNanos, offset := 0 } := by
  obtain ⟨hm0, hm1, hd0, hd1, hinv⟩ := civil_spec t.localDay
  have hdl := daysIn_le (Time.civil t.localDay).2.1 (Time.civil t.localDay).1
  rw [formatDateLayout_data t hy0 hy1]
  have hyear : digitValue (digitChar (t.Year.natAbs / 10 / 10 / 10)) * 1000 +
      digitValue (digitChar (t.Year.natAbs / 10 / 10)) * 100 +
      digitValue (digitChar (t.Year.natAbs / 10)) * 10 +
      digitValue (digitChar t.Year.natAbs) = t.Year := by
    simp only [digitValue_digitChar]
    omega
  have hmonth : digitValue (digitChar (t.Month.natAbs / 10)) * 10 +
      digitValue (digitChar t.Month.natAbs) = t.Month := by
    simp only [digitValue_digitChar]
    unfold Time.Month
    omega
  have hday : digitValue (digitChar (t.Day.natAbs / 10)) * 10 +
      digitValue (digitChar t.Day.natAbs) = t.Day := by
    simp only [digitValue_digitChar]
    unfold Time.Day
    omega
  simp only [parseDateLayout, digitChar_isDigit, hyear, hmonth, hday, and_self, if_true]
  have h1 : ¬ (t.Month ≤ 0 ∨ 12 < t.Month) := by unfold Time.Month; omega
  have h2 : ¬ (t.Day < 1 ∨ daysIn t.Month t.Year < t.Day) := by
    unfold Time.Day Time.Month Time.Year; omega
  rw [if_neg h1, if_neg h2]
  unfold Time.Day Time.Month Time.Year
  rw [hinv]


theorem trimQuotes_quoted (t : Time) (hy0 : 0 ≤ t.Year) (hy1 : t.Year ≤ 9999) :
    trimQuotes ('"' :: (formatDateLayout t).data ++ ['"']).asString = formatDateLayout t := by
  rw [formatDateLayout_data t hy0 hy1]
  simp [trimQuotes, List.asString, List.dropWhile, digitChar_ne_quote]

theorem formatDateLayout_ne (t : Time) (hy0 : 0 ≤ t.Year) (hy1 : t.Year ≤ 9999) :
    ¬ (formatDateLayout t = "null" ∨ formatDateLayout t = "") := by
  rw [formatDateLayout_data t hy0 hy1]
  intro h
  rcases h with h | h
  · have := congrArg String.length h
    simp [String.length] at this
  · have := congrArg String.length h
    simp [String.length] at this

theorem localDay_midnight (day : Int) :
    ({ ns := day * dayNanos, offset := 0 } : Time).localDay = day := by
  simp only [Time.localDay, dayNanos]
  omega

/-- C15 (as amended): for every Date whose time is non-zero, in UTC and in
a year from 0 to 9999, `MarshalJSON` succeeds and `UnmarshalJSON` of its
output succeeds and yields the UTC midnight of the calendar day of the date:
the result has the same `String()`, and is the date itself when the date is
already at UTC midnight. -/
theorem Date_json_roundtrip (d recv : Date)
    (hnz : d.Time.IsZero = false) (hutc : d.Time.offset = 0)
    (hy0 : 0 ≤ d.Time.Year) (hy1 : d.Time.Year ≤ 9999) :
    d.MarshalJSON.2 = none ∧
      Date.UnmarshalJSON recv d.MarshalJSON.1
        = (none, { Time := { ns := d.Time.localDay * dayNanos, offset := 0 } }) ∧
      (Date.UnmarshalJSON recv d.MarshalJSON.1).2.String = d.String ∧
      (d.Time.ns % dayNanos = 0 → (Date.UnmarshalJSON recv d.MarshalJSON.1).2 = d) := by
  have hm : d.MarshalJSON = (('"' :: (formatDateLayout d.Time).data ++ ['"']).asString, none) := by
    simp only [Date.MarshalJSON, hnz, Bool.false_eq_true, if_false]
  have hu : Date.UnmarshalJSON recv d.MarshalJSON.1
      = (none, { Time := { ns := d.Time.localDay * dayNanos, offset := 0 } }) := by
    rw [hm]
    simp only [Date.UnmarshalJSON, trimQuotes_quoted d.Time hy0 hy1,
      if_neg (formatDateLayout_ne d.Time hy0 hy1), parse_formatDateLayout d.Time hy0 hy1]
    rfl
  refine ⟨by rw [hm], hu, ?_, ?_⟩
  · rw [hu]
    simp only [Date.String, formatDateLayout, Time.Year, Time.Month, Time.Day,
      localDay_midnight]
  · intro hmid
    rw [hu]
    rcases d with ⟨⟨ns, off⟩⟩
    simp only at hutc hmid
    subst hutc
    simp only [Time.localDay, dayNanos] at hmid ⊢
    congr 2
    omega

/-- Witness of C15 (as amended): 2025-06-02 at 10:00 UTC goes through JSON
to 2025-06-02 at midnight UTC. -/
theorem Date_json_roundtrip_witness :
    (createDate 739403 36000000000000).MarshalJSON.1 = "\"2025-06-02\"" ∧
      Date.UnmarshalJSON ⟨⟨0, 0⟩⟩ (createDate 739403 36000000000000).MarshalJSON.1
        = (none, createDate 739403 0) :=
  ⟨by decide,
    (Date_json_roundtrip (createDate 739403 36000000000000) ⟨⟨0, 0⟩⟩
      (by decide) (by decide) (by decide) (by decide)).2.1.trans (by decide)⟩

/-- C15 as stated fails: the first of January of the year 10000, non-zero
and in UTC, is written as "10000-01-01", which `UnmarshalJSON` rejects. -/
theorem Date_json_year_10000 :
    (createDate 3652059 0).Time.IsZero = false ∧
      (createDate 3652059 0).Time.offset = 0 ∧
      (createDate 3652059 0).MarshalJSON = ("\"10000-01-01\"", none) ∧
      (Date.UnmarshalJSON ⟨⟨0, 0⟩⟩ (createDate 3652059 0).MarshalJSON.1).1
        = some (.invalidDate "cannot parse") := by
  decide

end CityNext
